import Mathlib

/-!
Verification of the insight-agent response-recovery and heuristic-analysis
pipeline of the personal-financial-advisor repository.

The Python source (src/src/ai/insight-agent/main_vertex.py and
src/ui/budget_coach_app.py) is shallowly embedded here:

* Python strings are modelled as `List Char`;
* Python floats are modelled as exact rationals `ℚ` (the population standard
  deviation `statistics.pstdev`, whose value is an irrational square root in
  general, is threaded through the affected definitions as an explicit
  parameter `sigma`, constrained in the theorems by `0 ≤ sigma` and
  `sigma ^ 2 = pvariance amounts`);
* `json.loads` is modelled by the executable recursive-descent parser
  `jsonLoads` below (strict JSON grammar — a single value, surrounding
  whitespace only — plus the `NaN`/`Infinity`/`-Infinity` literals that
  CPython accepts by default, represented by the dedicated `JValue.nan`
  and `JValue.infinity` constructors; surrogate-pair decoding is not
  modelled, as no statement here depends on it).  A parsed JSON `null` is
  the Python value `None`, which `_parse_json_to_obj`'s callers cannot
  distinguish from a parse failure — `denull` below captures this;
* Flask responses are modelled by `HttpResp` (a JSON body plus a status);
* the Vertex model call is an oracle parameter: `Nat → ModelOutcome` gives
  the outcome of each successive call attempt (the code performs exactly
  one attempt per request, so only index 0 is ever consulted).
-/

/-- Convert a Lean string literal to the `List Char` representation used
throughout this development. -/
def toL (s : String) : List Char := s.data

/-- Whitespace characters stripped by Python `str.strip()`. -/
def isPyWs (c : Char) : Bool :=
  c = ' ' || c = '\t' || c = '\n' || c = '\r' || c = '\x0b' || c = '\x0c'

/-- Python `str.strip()`: remove leading and trailing whitespace. -/
def pyStrip (s : List Char) : List Char :=
  ((s.dropWhile isPyWs).reverse.dropWhile isPyWs).reverse

/-- Does `p` occur at the very beginning of `s`? -/
def leadsBy : List Char → List Char → Bool
  | [], _ => true
  | _ :: _, [] => false
  | p :: ps, c :: cs => p = c && leadsBy ps cs

/-- One fuelled step of Python `str.replace`: scan left to right, replacing
each non-overlapping occurrence of `pat` by `rep`.  `fuel` is the length of
the scanned string, which suffices because `pat` is nonempty at every use
site. -/
def replFrom (pat rep : List Char) : Nat → List Char → List Char
  | _, [] => []
  | 0, s => s
  | Nat.succ fuel, c :: cs =>
    if leadsBy pat (c :: cs) then
      rep ++ replFrom pat rep fuel (List.drop pat.length (c :: cs))
    else
      c :: replFrom pat rep fuel cs

/-- Python `s.replace(pat, rep)` (for the nonempty patterns used by the
code; an empty pattern is returned unchanged, a case never exercised). -/
def pyReplace (s pat rep : List Char) : List Char :=
  if pat = [] then s else replFrom pat rep s.length s

/-- `_clean_fences` (main_vertex.py:298-302): strip, remove the three fence
markers in order, strip again. -/
def cleanFences (text : List Char) : List Char :=
  let cleaned := pyStrip text
  let c1 := pyReplace cleaned (toL "```json") []
  let c2 := pyReplace c1 (toL "```JSON") []
  let c3 := pyReplace c2 (toL "```") []
  pyStrip c3

/-! ### JSON values and a model of `json.loads` -/

/-- Parsed JSON values (Python objects produced by `json.loads`).  Object
members keep insertion order; finite numbers are exact rationals; the
non-finite float constants that CPython's `json.loads` accepts by default
(`NaN`, `Infinity`, `-Infinity`) are represented explicitly. -/
inductive JValue : Type where
  | null : JValue
  | bool : Bool → JValue
  | num : ℚ → JValue
  | nan : JValue
  | infinity : Bool → JValue
  | str : List Char → JValue
  | arr : List JValue → JValue
  | obj : List (List Char × JValue) → JValue

/-- JSON grammar whitespace (`json.loads` skips exactly these). -/
def isJsonWs (c : Char) : Bool :=
  c = ' ' || c = '\t' || c = '\n' || c = '\r'

/-- Skip JSON whitespace. -/
def skipWs (s : List Char) : List Char := s.dropWhile isJsonWs

/-- Value of a hexadecimal digit. -/
def hexVal? (c : Char) : Option Nat :=
  if '0' ≤ c ∧ c ≤ '9' then some (c.toNat - '0'.toNat)
  else if 'a' ≤ c ∧ c ≤ 'f' then some (c.toNat - 'a'.toNat + 10)
  else if 'A' ≤ c ∧ c ≤ 'F' then some (c.toNat - 'A'.toNat + 10)
  else none

/-- Value of a decimal digit. -/
def digitVal? (c : Char) : Option Nat :=
  if '0' ≤ c ∧ c ≤ '9' then some (c.toNat - '0'.toNat) else none

/-- Is `c` a decimal digit? -/
def isDigitCh (c : Char) : Bool := '0' ≤ c && c ≤ '9'

/-- Numeric value of a digit run. -/
def digitsVal (ds : List Char) : Nat :=
  ds.foldl (fun acc c => acc * 10 + (digitVal? c).getD 0) 0

/-- Single-character escape sequences of JSON strings (`\u` handled
separately). -/
def escChar? (e : Char) : Option Char :=
  if e = '"' then some '"'
  else if e = '\\' then some '\\'
  else if e = '/' then some '/'
  else if e = 'b' then some '\x08'
  else if e = 'f' then some '\x0c'
  else if e = 'n' then some '\n'
  else if e = 'r' then some '\r'
  else if e = 't' then some '\t'
  else none

/-- Parse the body of a JSON string (the opening quote already consumed):
returns the decoded content and the remainder after the closing quote.
Unescaped control characters are rejected, as in strict `json.loads`. -/
def pString : Nat → List Char → Option (List Char × List Char)
  | 0, _ => none
  | Nat.succ fuel, s =>
    match s with
    | [] => none
    | c :: rest =>
      if c = '"' then some ([], rest)
      else if c = '\\' then
        match rest with
        | [] => none
        | e :: rest2 =>
          if e = 'u' then
            match rest2 with
            | h1 :: h2 :: h3 :: h4 :: rest3 =>
              match hexVal? h1, hexVal? h2, hexVal? h3, hexVal? h4 with
              | some a, some b, some c2, some d =>
                (pString fuel rest3).map
                  (fun pr => (Char.ofNat (((a * 16 + b) * 16 + c2) * 16 + d) :: pr.1, pr.2))
              | _, _, _, _ => none
            | _ => none
          else
            match escChar? e with
            | some ec => (pString fuel rest2).map (fun pr => (ec :: pr.1, pr.2))
            | none => none
      else if c.toNat < 32 then none
      else (pString fuel rest).map (fun pr => (c :: pr.1, pr.2))

/-- Assemble a JSON number from its sign, integer digits and fraction
digits, then parse an optional exponent from `s3`. -/
def pNumExp (neg : Bool) (intDs fracDs : List Char) (s3 : List Char) :
    Option (ℚ × List Char) :=
  let expPart : Option (Int × List Char) := match s3 with
    | 'e' :: r | 'E' :: r =>
      let (esign, r1) := match r with
        | '+' :: rr => ((1 : Int), rr)
        | '-' :: rr => ((-1 : Int), rr)
        | _ => ((1 : Int), r)
      let eds := r1.takeWhile isDigitCh
      if eds = [] then none
      else some (esign * (digitsVal eds : Int), r1.dropWhile isDigitCh)
    | _ => some (0, s3)
  match expPart with
  | none => none
  | some (e, rest) =>
    let mant : ℚ :=
      (digitsVal intDs : ℚ) + (digitsVal fracDs : ℚ) / (10 : ℚ) ^ fracDs.length
    let scaled : ℚ :=
      if 0 ≤ e then mant * (10 : ℚ) ^ e.toNat else mant / (10 : ℚ) ^ (-e).toNat
    some ((if neg then -scaled else scaled), rest)

/-- Parse a JSON number per the strict grammar
`-? (0 | [1-9][0-9]*) (. [0-9]+)? ([eE] [+-]? [0-9]+)?`, returning its exact
rational value and the unconsumed remainder. -/
def pNumber (s : List Char) : Option (ℚ × List Char) :=
  let (neg, s1) := match s with
    | '-' :: r => (true, r)
    | _ => (false, s)
  match s1 with
  | [] => none
  | c :: _ =>
    if ¬ isDigitCh c then none
    else
      let (intDs, s2) :=
        if c = '0' then ([c], s1.tail)
        else (s1.takeWhile isDigitCh, s1.dropWhile isDigitCh)
      match s2 with
      | '.' :: r =>
        -- a dot not followed by a digit is a parse error, not a bare int
        if r.takeWhile isDigitCh = [] then none
        else pNumExp neg intDs (r.takeWhile isDigitCh) (r.dropWhile isDigitCh)
      | _ => pNumExp neg intDs [] s2

mutual
/-- Parse one JSON value (leading whitespace already skipped). -/
def pValue : Nat → List Char → Option (JValue × List Char)
  | 0, _ => none
  | Nat.succ fuel, s =>
    match s with
    | [] => none
    | c :: rest =>
      if c = '{' then
        match skipWs rest with
        | '}' :: r => some (JValue.obj [], r)
        | s1 => (pMembers fuel s1).map (fun pr => (JValue.obj pr.1, pr.2))
      else if c = '[' then
        match skipWs rest with
        | ']' :: r => some (JValue.arr [], r)
        | s1 => (pElems fuel s1).map (fun pr => (JValue.arr pr.1, pr.2))
      else if c = '"' then
        (pString (Nat.succ fuel) rest).map (fun pr => (JValue.str pr.1, pr.2))
      else if leadsBy (toL "true") s then some (JValue.bool true, s.drop 4)
      else if leadsBy (toL "false") s then some (JValue.bool false, s.drop 5)
      else if leadsBy (toL "null") s then some (JValue.null, s.drop 4)
      else if leadsBy (toL "NaN") s then some (JValue.nan, s.drop 3)
      else if leadsBy (toL "Infinity") s then some (JValue.infinity false, s.drop 8)
      else if leadsBy (toL "-Infinity") s then some (JValue.infinity true, s.drop 9)
      else
        (pNumber s).map (fun pr => (JValue.num pr.1, pr.2))

/-- Parse the members of a JSON object, positioned at the first key;
consumes the closing brace. -/
def pMembers : Nat → List Char → Option (List (List Char × JValue) × List Char)
  | 0, _ => none
  | Nat.succ fuel, s =>
    match s with
    | '"' :: rest =>
      match pString (Nat.succ fuel) rest with
      | none => none
      | some (key, r1) =>
        match skipWs r1 with
        | ':' :: r2 =>
          match pValue fuel (skipWs r2) with
          | none => none
          | some (v, r3) =>
            match skipWs r3 with
            | ',' :: r4 =>
              (pMembers fuel (skipWs r4)).map (fun pr => ((key, v) :: pr.1, pr.2))
            | '}' :: r4 => some ([(key, v)], r4)
            | _ => none
        | _ => none
    | _ => none

/-- Parse the elements of a JSON array, positioned at the first element;
consumes the closing bracket. -/
def pElems : Nat → List Char → Option (List JValue × List Char)
  | 0, _ => none
  | Nat.succ fuel, s =>
    match pValue fuel s with
    | none => none
    | some (v, r1) =>
      match skipWs r1 with
      | ',' :: r2 => (pElems fuel (skipWs r2)).map (fun pr => (v :: pr.1, pr.2))
      | ']' :: r2 => some ([v], r2)
      | _ => none
end

/-- Model of strict `json.loads`: one JSON value surrounded by only
whitespace; anything else is a parse failure (`None` here, an exception in
Python — always caught by the callers modelled below). -/
def jsonLoads (s : List Char) : Option JValue :=
  match pValue (2 * s.length + 2) (skipWs s) with
  | some (v, rest) => if skipWs rest = [] then some v else none
  | none => none

/-! ### Balanced-JSON extraction (`_extract_balanced_json`) -/

/-- Is `c` an opening brace/bracket? -/
def isOpenCh (c : Char) : Bool := c = '{' || c = '['

/-- The scanning loop of `_extract_balanced_json`
(main_vertex.py:318-339), one character per step.  State: current nesting
`depth`, inside-string flag `inStr`, pending-escape flag `esc`.  Returns
the consumed text up to and including the character that brings the depth
back to zero. -/
def scanBal (oc cc : Char) : Int → Bool → Bool → List Char → Option (List Char)
  | _, _, _, [] => none
  | depth, inStr, esc, c :: rest =>
    if esc then (scanBal oc cc depth inStr false rest).map (fun r => c :: r)
    else if c = '\\' then (scanBal oc cc depth inStr true rest).map (fun r => c :: r)
    else if c = '"' then (scanBal oc cc depth (!inStr) false rest).map (fun r => c :: r)
    else if inStr then (scanBal oc cc depth inStr false rest).map (fun r => c :: r)
    else if c = oc then (scanBal oc cc (depth + 1) inStr false rest).map (fun r => c :: r)
    else if c = cc then
      if depth - 1 = 0 then some [c]
      else (scanBal oc cc (depth - 1) inStr false rest).map (fun r => c :: r)
    else (scanBal oc cc depth inStr false rest).map (fun r => c :: r)

/-- `_extract_balanced_json` (main_vertex.py:304-340): find the first
opening brace/bracket, then scan for the matching balanced closer,
respecting string literals and escapes. -/
def extractBalancedJson (s : List Char) : Option (List Char) :=
  let t := s.dropWhile (fun c => !(isOpenCh c))
  match t with
  | [] => none
  | c :: _ => scanBal c (if c = '{' then '}' else ']') 0 false false t

/-- `json.loads("null")` yields the Python value `None` — the same value
`_parse_json_to_obj` returns on failure and that its callers test with
`obj is not None`.  Returning a parsed JSON `null` is therefore
indistinguishable from a parse failure: `denull` maps it to the `none`
sentinel. -/
def denull : JValue → Option JValue
  | JValue.null => none
  | v => some v

/-- `_parse_json_to_obj` (main_vertex.py:342-355): clean fences, try a
direct parse, then try the first balanced JSON substring.  The result is
the `Optional[Any]` the Python function returns, where `none` is Python
`None` — produced both by the failure paths and by a successful parse of
JSON `null`. -/
def parseJsonToObj (text : List Char) : Option JValue :=
  let cleaned := cleanFences text
  match jsonLoads cleaned with
  | some o => denull o
  | none =>
    match extractBalancedJson cleaned with
    | some candidate =>
      match jsonLoads candidate with
      | some o => denull o
      | none => none
    | none => none

/-! ### HTTP responses and the recovery handler -/

/-- A Flask response as produced by the insight-agent endpoints: a JSON
body and an HTTP status code. -/
structure HttpResp : Type where
  body : JValue
  status : Nat

/-- `_json_response` (main_vertex.py:357-358). -/
def jsonResponse (obj : JValue) : HttpResp := ⟨obj, 200⟩

/-- `_generic_fallback` (main_vertex.py:360-369). -/
def genericFallback : JValue :=
  JValue.obj
    [ (toL "summary", JValue.str (toL "Model returned non-JSON output. Treating as low risk / empty analysis."))
    , (toL "findings", JValue.arr [])
    , (toL "overall_risk", JValue.str (toL "low"))
    , (toL "top_categories", JValue.arr [])
    , (toL "unusual_transactions", JValue.arr [])
    , (toL "buckets", JValue.arr [])
    , (toL "tips", JValue.arr []) ]

/-- `_handle_llm_json_or_fallback` (main_vertex.py:466-474), with the
`BL_FALLBACK` feature flag (default `true`) as an explicit argument. -/
def handleLlmJsonOrFallback (blFallback : Bool) (rawText : List Char) (blObj : JValue) : HttpResp :=
  match parseJsonToObj rawText with
  | some obj => jsonResponse obj
  | none =>
    if blFallback then jsonResponse blObj
    else jsonResponse genericFallback


/-! ### Transactions, statistics and heuristic fallbacks -/

/-- A transaction record in the canonical `{date, label, amount}` shape.
Fields are optional: the Python code reads them with `dict.get`, defaulting
a missing (or null) amount to `0` and leaving a missing date/label as
`None`.  Amounts are modelled as exact rationals; statements here only
concern records whose `amount` field, when present, is a JSON number. -/
structure Txn : Type where
  date : Option (List Char) := none
  label : Option (List Char) := none
  amount : Option ℚ := none
deriving DecidableEq, Inhabited

/-- `float(t.get("amount", 0) or 0)`: the amount of a transaction, zero
when missing. -/
def amtQ (t : Txn) : ℚ := t.amount.getD 0

/-- `statistics.mean` (callers guard against the empty list). -/
def listMean (xs : List ℚ) : ℚ := xs.sum / xs.length

/-- Population variance, the square of `statistics.pstdev`.  `pstdev`
itself is irrational in general, so the definitions below take the
standard deviation as an explicit parameter `sigma`, pinned down in the
theorems by `0 ≤ sigma` and `sigma ^ 2 = pvariance xs`. -/
def pvariance (xs : List ℚ) : ℚ :=
  (xs.map (fun x => (x - listMean xs) ^ 2)).sum / xs.length

/-- The `1e-9` epsilon of the threshold computation. -/
def EPS : ℚ := 1 / 1000000000

/-- The absolute amounts `[abs(float(t.get("amount", 0) or 0)) for t in txns]`. -/
def absAmounts (txns : List Txn) : List ℚ := txns.map (fun t => |amtQ t|)

/-- `_maybe_fast_filter` (main_vertex.py:453-464).  `sigma` stands for
`pstdev(amounts)`; it is consulted only when there are at least two
amounts, exactly as in the source. -/
def maybeFastFilter (txns : List Txn) (fastFlag : Bool) (sigma : ℚ) : List Txn :=
  if !fastFlag || txns.isEmpty then txns
  else
    let amounts := absAmounts txns
    -- `if not amounts: return txns` (unreachable when txns is nonempty)
    if amounts.isEmpty then txns
    else
      let mu := listMean amounts
      let sig := if 1 < amounts.length then sigma else 0
      let threshold := mu + 3 * (if sig > EPS then sig else EPS)
      let anomalies := txns.filter (fun t => decide (threshold < |amtQ t|))
      if anomalies.isEmpty then txns else anomalies

/-- Python `round(x, 2)`, modelled as exact rounding to cents (the source
only ever rounds values for which the rounding mode is immaterial). -/
def round2 (q : ℚ) : ℚ := (round (q * 100) : ℚ) / 100

/-- `f"{x:.2f}"`: two-decimal rendering of a rational, modelled as exact
decimal rounding. -/
def fmt2 (q : ℚ) : List Char :=
  let sign : List Char := if q < 0 then toL "-" else []
  let cents : Nat := (round (|q| * 100)).toNat
  sign ++ toL (toString (cents / 100)) ++ toL "." ++
    (if cents % 100 < 10 then toL "0" else []) ++ toL (toString (cents % 100))

/-- The income total of `bl_spending` (main_vertex.py:375). -/
def blIncome (txns : List Txn) : ℚ :=
  ((txns.filter (fun t => decide (0 < amtQ t))).map amtQ).sum

/-- The spending total of `bl_spending` (main_vertex.py:376). -/
def blSpend (txns : List Txn) : ℚ :=
  ((txns.filter (fun t => decide (amtQ t < 0))).map (fun t => -amtQ t)).sum

/-- A `{name, total, count}` category entry. -/
structure Category : Type where
  name : List Char
  total : ℚ
  count : Nat
deriving DecidableEq

/-- Result shape of `bl_spending`. -/
structure SpendingResult : Type where
  summary : List Char
  top_categories : List Category
  unusual_transactions : List Txn
deriving DecidableEq

/-- `bl_spending` (main_vertex.py:374-393); `sigma` stands for
`pstdev(amounts)` as in `maybeFastFilter`. -/
def blSpending (sigma : ℚ) (txns : List Txn) : SpendingResult :=
  let income := blIncome txns
  let spend := blSpend txns
  let amounts := absAmounts txns
  let mu := if amounts.isEmpty then 0 else listMean amounts
  let sig := if 1 < amounts.length then sigma else 0
  let thresh := mu + 3 * (if sig > EPS then sig else EPS)
  let unusual := txns.filter (fun t => decide (thresh < |amtQ t|))
  let cats :=
    (if spend > 0 then
      [Category.mk (toL "Expenses") (round2 spend)
        (txns.filter (fun t => decide (amtQ t < 0))).length]
     else [])
    ++
    (if income > 0 then
      [Category.mk (toL "Income") (round2 income)
        (txns.filter (fun t => decide (0 < amtQ t))).length]
     else [])
  { summary := toL "Income " ++ fmt2 income ++ toL ", spending " ++ fmt2 spend ++ toL "."
    top_categories := cats.take 5
    unusual_transactions := unusual }

/-- Result shape of `bl_coach`. -/
structure CoachResult : Type where
  summary : List Char
  buckets : List Category
  tips : List (List Char)
deriving DecidableEq

/-- `bl_coach` (main_vertex.py:395-414). -/
def blCoach (sigma : ℚ) (txns : List Txn) : CoachResult :=
  let s := blSpending sigma txns
  let income_total :=
    (((s.top_categories.filter (fun c => decide (c.name = toL "Income"))).head?).map
      Category.total).getD 0
  let spend_total :=
    (((s.top_categories.filter (fun c => decide (c.name = toL "Expenses"))).head?).map
      Category.total).getD 0
  let net := income_total - spend_total
  let buckets :=
    [Category.mk (toL "Income") (round2 income_total)
       (txns.filter (fun t => decide (0 < amtQ t))).length,
     Category.mk (toL "Spending") (round2 spend_total)
       (txns.filter (fun t => decide (amtQ t < 0))).length]
  let tips :=
    (if spend_total > 0 then [toL "Set a weekly spending cap and monitor exceptions."] else [])
    ++ (if income_total > 0 ∧ net > 0 then
          [toL "Auto-transfer a % of income to savings after each paycheck."] else [])
    ++ [toL "Review any large or unusual transactions for accuracy."]
  { summary := toL "Income " ++ fmt2 income_total ++ toL ", spending " ++ fmt2 spend_total
      ++ toL ". Net " ++ fmt2 net ++ toL "."
    buckets := buckets
    tips := tips.take 3 }

/-- The `{"date": ..., "label": ..., "amount": amt}` sub-object of a fraud
finding (date/label may be `None`). -/
structure FindingTxn : Type where
  date : Option (List Char)
  label : Option (List Char)
  amount : ℚ
deriving DecidableEq

/-- A fraud finding. -/
structure Finding : Type where
  transaction : FindingTxn
  risk_score : ℚ
  indicators : List (List Char)
  reason : List Char
  recommendation : List Char
deriving DecidableEq

/-- Result shape of `bl_fraud`. -/
structure FraudResult : Type where
  findings : List Finding
  overall_risk : List Char
  summary : List Char
deriving DecidableEq

/-- Python `q % 100 == 0` for a nonnegative float amount: `q` is an exact
integer multiple of `100`. -/
def isMult100 (q : ℚ) : Bool := (q / 100).den = 1

/-- The loop body of `bl_fraud` (main_vertex.py:419-436) for one
transaction: the indicator list, the risk accumulation (`risk = max(risk, _)`
per matched policy), and the finding — `none` when no indicator matched. -/
def blFraudFinding (t : Txn) : Option Finding :=
  let amt := amtQ t
  let indicators :=
    (if (100000 : ℚ) ≤ amt then [toL "unusual_amount"] else [])
    ++ (if (10000 : ℚ) ≤ |amt| ∧ isMult100 |amt| = true then [toL "round_dollar_amount"] else [])
  let risk0 : ℚ := 0
  let risk1 := if (100000 : ℚ) ≤ amt then max risk0 (9/10) else risk0
  let risk2 := if (10000 : ℚ) ≤ |amt| ∧ isMult100 |amt| = true then max risk1 (6/10) else risk1
  if indicators.isEmpty then none
  else some
    { transaction := ⟨t.date, t.label, amt⟩
      risk_score := round2 risk2
      indicators := indicators
      reason := toL "Heuristic screening flagged patterns requiring review."
      recommendation := toL "Place a hold and verify the source with the customer if warranted." }

/-- `bl_fraud` (main_vertex.py:416-448). -/
def blFraud (txns : List Txn) : FraudResult :=
  let findings := txns.filterMap blFraudFinding
  let overall :=
    if findings.any (fun f => decide ((85/100 : ℚ) ≤ f.risk_score)) then toL "high"
    else if findings.any (fun f => decide ((6/10 : ℚ) ≤ f.risk_score)) then toL "medium"
    else toL "low"
  { findings := findings
    overall_risk := overall
    summary := toL "Heuristic baseline screening results." }

/-! ### JSON encodings of the result shapes -/

/-- First-match association-list lookup (the JSON objects and keyword
dictionaries manipulated here never carry duplicate keys, so this agrees
with Python dict lookup at every use site). -/
def alistGet {β : Type} : List (List Char × β) → List Char → Option β
  | [], _ => none
  | kv :: rest, k => if kv.1 = k then some kv.2 else alistGet rest k

/-- Encode an optional string as a JSON value (`None` becomes `null`). -/
def optStrJ : Option (List Char) → JValue
  | some s => JValue.str s
  | none => JValue.null

/-- Serialize a transaction record back to JSON, emitting exactly the
fields it carries. -/
def txnToJson (t : Txn) : JValue :=
  JValue.obj
    ((match t.date with | some d => [(toL "date", JValue.str d)] | none => [])
     ++ (match t.label with | some l => [(toL "label", JValue.str l)] | none => [])
     ++ (match t.amount with | some a => [(toL "amount", JValue.num a)] | none => []))

/-- Serialize a category entry. -/
def categoryToJson (c : Category) : JValue :=
  JValue.obj
    [ (toL "name", JValue.str c.name)
    , (toL "total", JValue.num c.total)
    , (toL "count", JValue.num (c.count : ℚ)) ]

/-- Serialize a `bl_spending` result. -/
def spendingResultToJson (r : SpendingResult) : JValue :=
  JValue.obj
    [ (toL "summary", JValue.str r.summary)
    , (toL "top_categories", JValue.arr (r.top_categories.map categoryToJson))
    , (toL "unusual_transactions", JValue.arr (r.unusual_transactions.map txnToJson)) ]

/-- Serialize a `bl_coach` result. -/
def coachResultToJson (r : CoachResult) : JValue :=
  JValue.obj
    [ (toL "summary", JValue.str r.summary)
    , (toL "buckets", JValue.arr (r.buckets.map categoryToJson))
    , (toL "tips", JValue.arr (r.tips.map JValue.str)) ]

/-- Serialize a fraud finding. -/
def findingToJson (f : Finding) : JValue :=
  JValue.obj
    [ (toL "transaction", JValue.obj
        [ (toL "date", optStrJ f.transaction.date)
        , (toL "label", optStrJ f.transaction.label)
        , (toL "amount", JValue.num f.transaction.amount) ])
    , (toL "risk_score", JValue.num f.risk_score)
    , (toL "indicators", JValue.arr (f.indicators.map JValue.str))
    , (toL "reason", JValue.str f.reason)
    , (toL "recommendation", JValue.str f.recommendation) ]

/-- Serialize a `bl_fraud` result. -/
def fraudResultToJson (r : FraudResult) : JValue :=
  JValue.obj
    [ (toL "findings", JValue.arr (r.findings.map findingToJson))
    , (toL "overall_risk", JValue.str r.overall_risk)
    , (toL "summary", JValue.str r.summary) ]

/-! ### Endpoints -/

/-- `_extract_transactions` (main_vertex.py:261-276): accept a bare JSON
array or an object whose `transactions` key holds a list. -/
def extractTransactions : Option JValue → Option (List JValue)
  | none => none
  | some (JValue.arr l) => some l
  | some (JValue.obj kvs) =>
    match alistGet kvs (toL "transactions") with
    | some (JValue.arr l) => some l
    | _ => none
  | some _ => none

/-- Decode one transaction dict into the canonical record (fields read via
`dict.get`; a non-number amount, which would make Python `float` raise,
does not occur in any statement below). -/
def txnOfJson (v : JValue) : Txn :=
  match v with
  | JValue.obj kvs =>
    { date := match alistGet kvs (toL "date") with
        | some (JValue.str s) => some s
        | _ => none
      label := match alistGet kvs (toL "label") with
        | some (JValue.str s) => some s
        | _ => none
      amount := match alistGet kvs (toL "amount") with
        | some (JValue.num q) => some q
        | _ => none }
  | _ => default

/-- Outcome of one `model.generate_content` attempt (together with the
`_resp_to_text` extraction): either response text, or an exception.  The
`isRateLimit` tag records whether the exception was a rate-limit error —
the handlers treat every exception identically, which is what claim C4 is
about. -/
inductive ModelOutcome : Type where
  | ok (text : List Char)
  | exn (isRateLimit : Bool) (message : List Char)

/-- An apostrophe character (used in the literal 400 error message). -/
def apos : Char := Char.ofNat 39

/-- The 400 response body of the analysis endpoints. -/
def err400 : HttpResp :=
  ⟨JValue.obj [(toL "error", JValue.str
      (toL "Expected JSON list or \x7b" ++ [apos] ++ toL "transactions" ++ [apos]
        ++ toL ": [...]\x7d"))], 400⟩

/-- `jsonify(error=str(e)), 500`. -/
def err500 (msg : List Char) : HttpResp :=
  ⟨JValue.obj [(toL "error", JValue.str msg)], 500⟩

/-- `POST /api/spending/analyze` (main_vertex.py:508-532).  `blOnly` and
`blFallback` are the `INSIGHT_BL_ONLY` / `INSIGHT_BL_FALLBACK` flags
(defaults `false` / `true`); `sigma` stands for `pstdev` of the absolute
amounts; `model` is the attempt-indexed outcome of the Vertex call (the
code performs a single attempt, consulting only index `0`). -/
def spendingAnalyze (blOnly blFallback : Bool) (sigma : ℚ) (body : Option JValue)
    (model : Nat → ModelOutcome) : HttpResp :=
  match extractTransactions body with
  | none => err400
  | some [] => err400
  | some (tj :: tjs) =>
    let txns := (tj :: tjs).map txnOfJson
    if blOnly then jsonResponse (spendingResultToJson (blSpending sigma txns))
    else
      match model 0 with
      | ModelOutcome.ok text =>
        handleLlmJsonOrFallback blFallback text (spendingResultToJson (blSpending sigma txns))
      | ModelOutcome.exn _ msg =>
        if blFallback || blOnly then
          jsonResponse (spendingResultToJson (blSpending sigma txns))
        else err500 msg

/-- `POST /api/budget/coach` (main_vertex.py:479-503). -/
def budgetCoach (blOnly blFallback : Bool) (sigma : ℚ) (body : Option JValue)
    (model : Nat → ModelOutcome) : HttpResp :=
  match extractTransactions body with
  | none => err400
  | some [] => err400
  | some (tj :: tjs) =>
    let txns := (tj :: tjs).map txnOfJson
    if blOnly then jsonResponse (coachResultToJson (blCoach sigma txns))
    else
      match model 0 with
      | ModelOutcome.ok text =>
        handleLlmJsonOrFallback blFallback text (coachResultToJson (blCoach sigma txns))
      | ModelOutcome.exn _ msg =>
        if blFallback || blOnly then
          jsonResponse (coachResultToJson (blCoach sigma txns))
        else err500 msg

/-- `fast_qs.lower() in ("1", "true", "yes", "y")`. -/
def qsTruthy (s : List Char) : Bool :=
  let l := s.map Char.toLower
  decide (l = toL "1" ∨ l = toL "true" ∨ l = toL "yes" ∨ l = toL "y")

/-- `POST /api/fraud/detect` (main_vertex.py:537-577).  `envFast` is
`INSIGHT_FAST_MODE` (default `false`); `fastQS` the optional `fast` query
parameter, which overrides it.  The `account_context` field and the
`MAX_TXNS` truncation shape only the prompt text, which the `model` oracle
abstracts. -/
def fraudDetect (blOnly blFallback envFast : Bool) (sigma : ℚ) (body : Option JValue)
    (fastQS : Option (List Char)) (model : Nat → ModelOutcome) : HttpResp :=
  match extractTransactions body with
  | none => err400
  | some [] => err400
  | some (tj :: tjs) =>
    let txns := (tj :: tjs).map txnOfJson
    let fastMode := match fastQS with
      | none => envFast
      | some s => qsTruthy s
    let txnsForPrompt := maybeFastFilter txns fastMode sigma
    if blOnly then jsonResponse (fraudResultToJson (blFraud txnsForPrompt))
    else
      match model 0 with
      | ModelOutcome.ok text =>
        handleLlmJsonOrFallback blFallback text (fraudResultToJson (blFraud txnsForPrompt))
      | ModelOutcome.exn _ msg =>
        if blFallback || blOnly then
          jsonResponse (fraudResultToJson (blFraud txnsForPrompt))
        else err500 msg

/-! ### The UI transaction normalizer (`ui/budget_coach_app.py`) -/

/-- A raw upstream (Bank-of-Anthos-shaped) transaction record.  Account
numbers are modelled after the `str(...)` coercion the code applies; the
amount after `float(t.get("amount", 0))`. -/
structure RawTxn : Type where
  timestamp : List Char := []
  toAccountNum : List Char := []
  fromAccountNum : List Char := []
  amount : ℚ := 0
deriving DecidableEq

/-- `normalize_ts` (budget_coach_app.py:37-39). -/
def normalizeTs (ts : List Char) : List Char :=
  pyReplace (pyReplace ts (toL ".000+00:00") (toL "Z")) (toL "+00:00") (toL "Z")

/-- One record of `transform_for_agent` (budget_coach_app.py:53-67). -/
def transformOne (acct : List Char) (t : RawTxn) : Txn :=
  let inbound := t.toAccountNum = acct
  { date := some (normalizeTs t.timestamp)
    label := some (if inbound then toL "Inbound from " ++ t.fromAccountNum
                   else toL "Outbound to " ++ t.toAccountNum)
    amount := some (if inbound then t.amount else -t.amount) }

/-- `transform_for_agent` (budget_coach_app.py:53-67). -/
def transformForAgent (raw : List RawTxn) (acct : List Char) : List Txn :=
  raw.map (transformOne acct)

/-! ### Prompt templates (`load_prompts` / `render_prompt`) -/

/-- The in-code default prompts (main_vertex.py:121-136). -/
def defaultPrompts : List (List Char × List Char) :=
  [ (toL "coach",
      toL "You are a helpful coach.\nReturn JSON with keys summary, buckets, tips.\nTransactions:\n{transactions}\n")
  , (toL "spending_analyze",
      toL "You analyze spending.\nReturn JSON with summary, top_categories, unusual_transactions.\nTransactions:\n{transactions}\n")
  , (toL "fraud_detect",
      toL "You detect fraud.\nTransactions:\n{transactions}\n{account_context}\nReturn JSON with findings, overall_risk, summary.\n") ]

/-- Python `{**a, **b}` for keyword dictionaries without internal
duplicates: entries of `a` in order (overridden by `b` where present),
then the new entries of `b`. -/
def dictUpdate {β : Type} (a b : List (List Char × β)) : List (List Char × β) :=
  (a.map (fun kv => match alistGet b kv.1 with
    | some v => (kv.1, v)
    | none => kv))
  ++ b.filter (fun kv => (alistGet a kv.1).isNone)

/-- `load_prompts` (main_vertex.py:118-153): `fileContents` is the parsed
`prompts.yaml` dictionary, `none` when the file is missing/unreadable or
PyYAML is unavailable; on success the file entries are merged over the
defaults (`{**default_prompts, **loaded}`). -/
def loadPrompts (fileContents : Option (List (List Char × List Char))) :
    List (List Char × List Char) :=
  match fileContents with
  | none => defaultPrompts
  | some loaded => dictUpdate defaultPrompts loaded

/-- `str.format_map` over a `_SafeDict`: substitute `{key}` fields from
`args`, a missing key rendering as the empty string; `{{` and `}}` are
literal braces.  `fuel` bounds the recursion (the input length suffices). -/
def fmtMapAux (args : List (List Char × List Char)) : Nat → List Char → List Char
  | 0, s => s
  | _ + 1, [] => []
  | fuel + 1, c :: rest =>
    if c = '{' then
      match rest with
      | '{' :: rest2 => '{' :: fmtMapAux args fuel rest2
      | _ =>
        let key := rest.takeWhile (fun x => decide (x ≠ '}'))
        let rest2 := (rest.dropWhile (fun x => decide (x ≠ '}'))).drop 1
        ((alistGet args key).getD []) ++ fmtMapAux args fuel rest2
    else if c = '}' then
      match rest with
      | '}' :: rest2 => '}' :: fmtMapAux args fuel rest2
      | _ => c :: fmtMapAux args fuel rest
    else c :: fmtMapAux args fuel rest

/-- `render_prompt` (main_vertex.py:155-157): look the template up in the
in-memory prompt set (empty string when absent) and safely substitute.  It
performs no file access and no modification-time check. -/
def renderPrompt (prompts : List (List Char × List Char)) (name : List Char)
    (args : List (List Char × List Char)) : List Char :=
  let tmpl := (alistGet prompts name).getD []
  fmtMapAux args tmpl.length tmpl

/-- The end-to-end scenario behind claim C9: the process loads prompts at
startup from `initialFile` (main_vertex.py:159), the template source then
changes on disk to `changedFile`, and a render is performed.  The render
path reads only the in-memory prompt set loaded at startup — `changedFile`
is not consulted, since `render_prompt` performs no modification-time
check and no reload. -/
def renderAfterFileChange (initialFile _changedFile : Option (List (List Char × List Char)))
    (name : List Char) (args : List (List Char × List Char)) : List Char :=
  renderPrompt (loadPrompts initialFile) name args

/-! ### Schema validity (the `Schema(...)` declarations, main_vertex.py:164-247) -/

/-- Look a key up in a JSON object. -/
def jGet (v : JValue) (k : List Char) : Option JValue :=
  match v with
  | JValue.obj kvs => alistGet kvs k
  | _ => none

/-- Is the value a JSON string? -/
def isStrV : JValue → Bool
  | JValue.str _ => true
  | _ => false

/-- Required STRING property. -/
def isStringAt (v : JValue) (k : List Char) : Bool :=
  match jGet v k with
  | some (JValue.str _) => true
  | _ => false

/-- Required NUMBER property. -/
def isNumberAt (v : JValue) (k : List Char) : Bool :=
  match jGet v k with
  | some (JValue.num _) => true
  | _ => false

/-- Required INTEGER property. -/
def isIntegerAt (v : JValue) (k : List Char) : Bool :=
  match jGet v k with
  | some (JValue.num q) => decide (q.den = 1)
  | _ => false

/-- Required ARRAY property whose items all satisfy `p`. -/
def allArrayAt (v : JValue) (k : List Char) (p : JValue → Bool) : Bool :=
  match jGet v k with
  | some (JValue.arr l) => l.all p
  | _ => false

/-- The `{date: STRING, label: STRING, amount: NUMBER}` transaction
object required by the spending and fraud schemas. -/
def validTxnObj (v : JValue) : Bool :=
  isStringAt v (toL "date") && isStringAt v (toL "label") && isNumberAt v (toL "amount")

/-- The `{name: STRING, total: NUMBER, count: INTEGER}` category object. -/
def validCategory (v : JValue) : Bool :=
  isStringAt v (toL "name") && isNumberAt v (toL "total") && isIntegerAt v (toL "count")

/-- A finding object of `FRAUD_SCHEMA`. -/
def validFinding (v : JValue) : Bool :=
  (match jGet v (toL "transaction") with
   | some tv => validTxnObj tv
   | none => false)
  && isNumberAt v (toL "risk_score")
  && allArrayAt v (toL "indicators") isStrV
  && isStringAt v (toL "reason")
  && isStringAt v (toL "recommendation")

/-- `FRAUD_SCHEMA` (main_vertex.py:218-247): required `findings` (array of
findings), `overall_risk` (STRING restricted to the low/medium/high enum)
and `summary` (STRING). -/
def fraudSchemaValid (v : JValue) : Bool :=
  allArrayAt v (toL "findings") validFinding
  && (match jGet v (toL "overall_risk") with
      | some (JValue.str s) =>
        decide (s = toL "low" ∨ s = toL "medium" ∨ s = toL "high")
      | _ => false)
  && isStringAt v (toL "summary")

/-- `SPENDING_SCHEMA` (main_vertex.py:186-216). -/
def spendingSchemaValid (v : JValue) : Bool :=
  isStringAt v (toL "summary")
  && allArrayAt v (toL "top_categories") validCategory
  && allArrayAt v (toL "unusual_transactions") validTxnObj

/-- `COACH_SCHEMA` (main_vertex.py:165-184). -/
def coachSchemaValid (v : JValue) : Bool :=
  isStringAt v (toL "summary")
  && allArrayAt v (toL "buckets") validCategory
  && allArrayAt v (toL "tips") isStrV

/-! ### Concrete inputs from the specification's test vectors -/

/-- The prose part preceding the JSON object in the C2 test vector. -/
def exProse : List Char := toL "Sure, here you go: "

/-- The embedded JSON object `{"summary":"ok"}` of the C2 test vector. -/
def exMid : List Char :=
  ['{'] ++ toL "\"summary\"" ++ [':'] ++ toL "\"ok\"" ++ ['}']

/-- The full C2 test vector: `Sure, here you go: {"summary":"ok"} thanks`. -/
def exC2 : List Char := exProse ++ exMid ++ toL " thanks"

/-! ### Concrete constants used by individual claims -/

/-- The C5 transaction `{"date":"2024-01-01","label":"Fresh Mart","amount":-42.75}`. -/
def c5Txn : Txn :=
  { date := some (toL "2024-01-01"), label := some (toL "Fresh Mart"), amount := some (-42.75) }

/-- The C5 request body: a bare array holding the one transaction. -/
def c5Body : JValue :=
  JValue.arr [JValue.obj
    [ (toL "date", JValue.str (toL "2024-01-01"))
    , (toL "label", JValue.str (toL "Fresh Mart"))
    , (toL "amount", JValue.num (-42.75)) ]]

/-- A model that raises on every attempt (simulated unavailability). -/
def modelUnavailable : Nat → ModelOutcome :=
  fun _ => ModelOutcome.exn false (toL "model unavailable")

/-- A plain transaction used by the C4 scenario. -/
def c4Txn : Txn :=
  { date := some (toL "2024-01-02"), label := some (toL "Wire"), amount := some 500 }

/-- The C4 request body. -/
def c4Body : JValue :=
  JValue.arr [JValue.obj
    [ (toL "date", JValue.str (toL "2024-01-02"))
    , (toL "label", JValue.str (toL "Wire"))
    , (toL "amount", JValue.num 500) ]]

/-- A model whose first attempt raises a rate-limit error and whose second
attempt would succeed — a retrying invoker would reach the success. -/
def rlThenOk : Nat → ModelOutcome := fun n =>
  if n = 0 then ModelOutcome.exn true (toL "429 Resource exhausted")
  else ModelOutcome.ok (toL "ok")

/-- A transaction used by the C6 scenario. -/
def c6Txn : Txn :=
  { date := some (toL "2024-01-03"), label := some (toL "Coffee"), amount := some (-3.5) }

/-- The C6 request body. -/
def c6Body : JValue :=
  JValue.arr [JValue.obj
    [ (toL "date", JValue.str (toL "2024-01-03"))
    , (toL "label", JValue.str (toL "Coffee"))
    , (toL "amount", JValue.num (-3.5)) ]]

/-- Model text that parses to the well-formed JSON object `{"foo": 1}`,
which satisfies none of the three response schemas. -/
def fooText : List Char := ['{'] ++ toL "\"foo\"" ++ [':'] ++ toL " 1" ++ ['}']

/-- The object `{"foo": 1}`. -/
def fooObj : JValue := JValue.obj [(toL "foo", JValue.num 1)]

/-- Initial prompts file for the C9 scenario. -/
def oldPromptsFile : List (List Char × List Char) :=
  [(toL "coach", toL "OLD {transactions}")]

/-- Changed prompts file for the C9 scenario. -/
def newPromptsFile : List (List Char × List Char) :=
  [(toL "coach", toL "NEW {transactions}")]

/-- Render arguments for the C9 scenario. -/
def c9Args : List (List Char × List Char) := [(toL "transactions", toL "T")]

/-- A raw upstream record whose destination is the caller's account and
whose amount is zero (as a missing amount defaults to). -/
def c7Raw : RawTxn :=
  { timestamp := toL "2024-01-01T00:00:00+00:00"
    toAccountNum := toL "12345"
    fromAccountNum := toL "67890"
    amount := 0 }

/-- Two-transaction list with amounts 1 and 3: mean 2, population standard
deviation exactly 1. -/
def txA : Txn := { amount := some 1 }

/-- See `txA`. -/
def txB : Txn := { amount := some 3 }

/-- A transaction at 150000, beyond the `unusual_amount` policy bound. -/
def bigT : Txn := { date := some (toL "d1"), label := some (toL "l1"), amount := some 150000 }

/-- A round -20000 transaction, matching only the round-dollar policy. -/
def roundT : Txn := { date := some (toL "d2"), label := some (toL "l2"), amount := some (-20000) }

/-- A small transaction matching no policy. -/
def smallT : Txn := { date := some (toL "d3"), label := some (toL "l3"), amount := some 55.5 }

/-! ### Claim-side fraud-policy predicates (C10) -/

/-- Modelled from the claim wording (C10): a transaction is flagged iff
its amount is at least 100000, or its absolute amount is at least 10000
and a whole multiple of 100. -/
def flaggedSpec (t : Txn) : Bool :=
  decide ((100000 : ℚ) ≤ amtQ t)
    || (decide ((10000 : ℚ) ≤ |amtQ t|) && isMult100 |amtQ t|)

/-- Modelled from the claim wording (C10): risk 0.9 when the amount is at
least 100000, otherwise 0.6. -/
def riskSpec (t : Txn) : ℚ :=
  if (100000 : ℚ) ≤ amtQ t then 9/10 else 6/10

/-- The indicator list `bl_fraud` attaches to a transaction. -/
def indicatorsSpec (t : Txn) : List (List Char) :=
  (if (100000 : ℚ) ≤ amtQ t then [toL "unusual_amount"] else [])
  ++ (if (10000 : ℚ) ≤ |amtQ t| ∧ isMult100 |amtQ t| = true
      then [toL "round_dollar_amount"] else [])

/-- The finding `bl_fraud` builds for a flagged transaction. -/
def findingSpec (t : Txn) : Finding :=
  { transaction := ⟨t.date, t.label, amtQ t⟩
    risk_score := riskSpec t
    indicators := indicatorsSpec t
    reason := toL "Heuristic screening flagged patterns requiring review."
    recommendation := toL "Place a hold and verify the source with the customer if warranted." }

/-! ### Structural lemmas about the balanced scanner -/

/-- A successful scan consumes an initial segment of its input: the result
is that segment. -/
theorem scanBal_consumed (oc cc : Char) :
    ∀ (xs : List Char) (d : Int) (i e : Bool) (r : List Char),
      scanBal oc cc d i e xs = some r → ∃ rest, xs = r ++ rest := by
  intro xs
  induction xs with
  | nil => intro d i e r h; simp [scanBal] at h
  | cons c cs ih =>
    intro d i e r h
    rw [scanBal] at h
    split_ifs at h with h1 h2 h3 h4 h5 h6 h7
    all_goals
      first
      | (obtain ⟨r', hr', rfl⟩ := Option.map_eq_some'.mp h
         obtain ⟨rest, hrest⟩ := ih _ _ _ _ hr'
         exact ⟨rest, by simp [hrest]⟩)
      | (obtain rfl := (Option.some_inj.mp h).symm
         exact ⟨cs, rfl⟩)

/-- A successful scan is unaffected by appending extra text after the
consumed segment. -/
theorem scanBal_append (oc cc : Char) (ys : List Char) :
    ∀ (xs : List Char) (d : Int) (i e : Bool) (r : List Char),
      scanBal oc cc d i e xs = some r →
      scanBal oc cc d i e (xs ++ ys) = some r := by
  intro xs
  induction xs with
  | nil => intro d i e r h; simp [scanBal] at h
  | cons c cs ih =>
    intro d i e r h
    simp only [List.cons_append]
    rw [scanBal] at h ⊢
    split_ifs at h ⊢ with h1 h2 h3 h4 h5 h6 h7
    all_goals
      first
      | exact h
      | (obtain ⟨r', hr', rfl⟩ := Option.map_eq_some'.mp h
         exact Option.map_eq_some'.mpr ⟨r', ih _ _ _ _ hr', rfl⟩)

/-- Dropping over a segment that is entirely dropped. -/
theorem dropWhile_append_all {p : Char → Bool} :
    ∀ (pre rest : List Char), (∀ c ∈ pre, p c = true) →
      List.dropWhile p (pre ++ rest) = List.dropWhile p rest := by
  intro pre
  induction pre with
  | nil => intro rest _; rfl
  | cons c cs ih =>
    intro rest h
    have hc : p c = true := h c (by simp)
    simp only [List.cons_append, List.dropWhile_cons, hc, if_true]
    exact ih rest (fun x hx => h x (by simp [hx]))

/-- If the whole input is extracted, nothing was dropped: the input starts
with the opening character and the scan consumes everything. -/
theorem extract_self_anatomy (mid : List Char)
    (h : extractBalancedJson mid = some mid) :
    ∃ c t, mid = c :: t ∧ isOpenCh c = true ∧
      scanBal c (if c = '{' then '}' else ']') 0 false false mid = some mid := by
  simp only [extractBalancedJson] at h
  split at h
  · exact absurd h (by simp)
  · rename_i c t' htm
    rw [htm] at h
    obtain ⟨rest, hrest⟩ := scanBal_consumed _ _ _ _ _ _ _ h
    have hsplit := List.takeWhile_append_dropWhile (p := fun c => !(isOpenCh c)) (l := mid)
    rw [htm] at hsplit
    have hlen : (List.takeWhile (fun c => !(isOpenCh c)) mid).length + (t'.length + 1)
        = mid.length := by
      have := congrArg List.length hsplit
      simpa using this
    have hlen2 : t'.length + 1 = mid.length + rest.length := by
      have := congrArg List.length hrest
      simpa using this
    have htw0 : List.takeWhile (fun c => !(isOpenCh c)) mid = [] :=
      List.length_eq_zero.mp (by omega)
    have hmid : mid = c :: t' := by
      rw [← hsplit, htw0]; simp
    have hopen : isOpenCh c = true := by
      by_contra hno
      have hpc : isOpenCh c = false := by simpa using hno
      rw [hmid, List.dropWhile_cons] at htm
      simp [hpc] at htm
      have hle := (List.dropWhile_sublist (l := t') (fun c => !(isOpenCh c))).length_le
      rw [htm] at hle
      simp at hle
    refine ⟨c, t', hmid, hopen, ?_⟩
    rw [hmid] at h ⊢
    exact h

/-- A successful scan never returns the empty string. -/
theorem scanBal_ne_nil (oc cc : Char) (xs : List Char) (d : Int) (i e : Bool)
    (r : List Char) (h : scanBal oc cc d i e xs = some r) : r ≠ [] := by
  cases xs with
  | nil => simp [scanBal] at h
  | cons c cs =>
    rw [scanBal] at h
    split_ifs at h with h1 h2 h3 h4 h5 h6 h7
    all_goals
      first
      | (obtain ⟨r', _, rfl⟩ := Option.map_eq_some'.mp h; simp)
      | (obtain rfl := (Option.some_inj.mp h).symm; simp)

/-- The head of a `dropWhile` result fails the dropped predicate. -/
theorem dropWhile_head_false {p : Char → Bool} :
    ∀ (l : List Char) (c : Char) (t : List Char),
      l.dropWhile p = c :: t → p c = false := by
  intro l
  induction l with
  | nil => intro c t h; simp at h
  | cons a as ih =>
    intro c t h
    rw [List.dropWhile_cons] at h
    by_cases hpa : p a
    · rw [if_pos hpa] at h
      exact ih _ _ h
    · rw [if_neg hpa] at h
      injection h with h1 _
      subst h1
      simpa using hpa

/-- Balanced extraction is insensitive to surrounding prose: prose before
the JSON (containing no opening brace/bracket) and anything after it are
ignored. -/
theorem extract_ignores_surroundings (pre mid post : List Char)
    (hpre : ∀ c ∈ pre, isOpenCh c = false)
    (hmid : extractBalancedJson mid = some mid) :
    extractBalancedJson (pre ++ mid ++ post) = some mid := by
  obtain ⟨c, t', hmideq, hopen, hscan⟩ := extract_self_anatomy mid hmid
  subst hmideq
  simp only [extractBalancedJson]
  have hdrop : (pre ++ (c :: t') ++ post).dropWhile (fun x => !(isOpenCh x))
      = c :: (t' ++ post) := by
    rw [List.append_assoc, dropWhile_append_all pre _ (fun x hx => by simp [hpre x hx])]
    simp only [List.cons_append, List.dropWhile_cons]
    simp [hopen]
  rw [hdrop]
  show scanBal c (if c = '{' then '}' else ']') 0 false false (c :: (t' ++ post))
      = some (c :: t')
  have happ := scanBal_append c (if c = '{' then '}' else ']') post
    (c :: t') 0 false false (c :: t') hscan
  simpa using happ

/-- The extraction result is a contiguous substring of the input, starting
at the first opening brace/bracket of the input. -/
theorem extract_is_first_balanced_substring (s r : List Char)
    (h : extractBalancedJson s = some r) :
    ∃ u rest, s = u ++ r ++ rest ∧ (∀ c ∈ u, isOpenCh c = false) ∧
      ∃ c t, r = c :: t ∧ isOpenCh c = true := by
  simp only [extractBalancedJson] at h
  split at h
  · exact absurd h (by simp)
  · rename_i c t' htm
    rw [htm] at h
    obtain ⟨rest, hrest⟩ := scanBal_consumed _ _ _ _ _ _ _ h
    have hne := scanBal_ne_nil _ _ _ _ _ _ _ h
    have hsplit := List.takeWhile_append_dropWhile (p := fun x => !(isOpenCh x)) (l := s)
    rw [htm] at hsplit
    obtain ⟨rc, rt, rfl⟩ : ∃ rc rt, r = rc :: rt := by
      cases r with
      | nil => exact absurd rfl hne
      | cons rc rt => exact ⟨rc, rt, rfl⟩
    have hrc : rc = c := by
      have := hrest
      simp only [List.cons_append] at this
      injection this with h1 _
      exact h1.symm
    subst hrc
    have hopen : isOpenCh rc = true := by
      have hp := dropWhile_head_false s rc t' htm
      simpa using hp
    refine ⟨s.takeWhile (fun x => !(isOpenCh x)), rest, ?_, ?_, rc, rt, rfl, hopen⟩
    · rw [List.append_assoc, ← hrest, hsplit]
    · intro x hx
      have := List.mem_takeWhile_imp hx
      simpa using this

/-- A value parsed from text starting with an opening brace/bracket is an
object or an array. -/
theorem pValue_open (c : Char) (rest : List Char) (fuel : Nat) (o : JValue)
    (r : List Char) (hc : isOpenCh c = true)
    (h : pValue fuel (c :: rest) = some (o, r)) :
    (∃ kvs, o = JValue.obj kvs) ∨ (∃ l, o = JValue.arr l) := by
  cases fuel with
  | zero => simp [pValue] at h
  | succ n =>
    rw [pValue] at h
    rcases (by simpa [isOpenCh] using hc : c = '{' ∨ c = '[') with rfl | rfl
    · rw [if_pos rfl] at h
      split at h
      · rcases h with ⟨rfl, rfl⟩ | _
        · exact Or.inl ⟨[], rfl⟩
      · obtain ⟨pr, _, heq⟩ := Option.map_eq_some'.mp h
        exact Or.inl ⟨pr.1, by rw [← (Prod.mk.injEq ..).mp heq |>.1]⟩
    · rw [if_neg (by decide), if_pos rfl] at h
      split at h
      · rcases h with ⟨rfl, rfl⟩ | _
        · exact Or.inr ⟨[], rfl⟩
      · obtain ⟨pr, _, heq⟩ := Option.map_eq_some'.mp h
        exact Or.inr ⟨pr.1, by rw [← (Prod.mk.injEq ..).mp heq |>.1]⟩

/-- A successful `json.loads` of text starting with an opening
brace/bracket never yields `null` (it yields an object or an array), so
the Python-`None` collapse is the identity on it. -/
theorem jsonLoads_open (c : Char) (t : List Char) (o : JValue)
    (hc : isOpenCh c = true) (h : jsonLoads (c :: t) = some o) :
    denull o = some o := by
  have hnw : isJsonWs c = false := by
    rcases (by simpa [isOpenCh] using hc : c = '{' ∨ c = '[') with rfl | rfl <;> rfl
  have hws : skipWs (c :: t) = c :: t := by
    simp [skipWs, List.dropWhile_cons, hnw]
  unfold jsonLoads at h
  rw [hws] at h
  cases hp : pValue (2 * (c :: t).length + 2) (c :: t) with
  | none =>
    simp only [hp] at h
    exact absurd h (by simp)
  | some pr =>
    obtain ⟨v, rest⟩ := pr
    simp only [hp] at h
    rcases pValue_open c t _ v rest hc hp with ⟨kvs, rfl⟩ | ⟨l, rfl⟩
    · by_cases hre : skipWs rest = []
      · rw [if_pos hre] at h
        obtain rfl := Option.some_inj.mp h
        rfl
      · rw [if_neg hre] at h
        exact absurd h (by simp)
    · by_cases hre : skipWs rest = []
      · rw [if_pos hre] at h
        obtain rfl := Option.some_inj.mp h
        rfl
      · rw [if_neg hre] at h
        exact absurd h (by simp)

/-- C1: with the fallback toggle enabled (its default), the recovery
pipeline tries a direct parse of the fence-cleaned text, then the first
balanced JSON substring, and on total failure returns the supplied
heuristic fallback object; the response status is always 200 (the
pipeline is a total function: no parse failure reaches the caller), and on
the input `not json at all` the body is exactly the fallback object.  Two
edges of the Python semantics are captured exactly: a parse that yields
JSON `null` returns Python `None`, which the caller's `obj is not None`
check routes to the fallback, and the `NaN` literal parses successfully,
so its value — not the fallback — is returned. -/
theorem c1_recovery_fallback_pipeline :
    (∀ (raw : List Char) (bl : JValue),
      (handleLlmJsonOrFallback true raw bl).status = 200)
  ∧ (∀ (raw : List Char) (bl : JValue) (o : JValue), parseJsonToObj raw = some o →
      handleLlmJsonOrFallback true raw bl = ⟨o, 200⟩)
  ∧ (∀ (raw : List Char) (bl : JValue), parseJsonToObj raw = none →
      handleLlmJsonOrFallback true raw bl = ⟨bl, 200⟩)
  ∧ (∀ (raw : List Char) (o : JValue), jsonLoads (cleanFences raw) = some o →
      parseJsonToObj raw = denull o)
  ∧ (∀ raw : List Char, jsonLoads (cleanFences raw) = none →
      parseJsonToObj raw
        = (extractBalancedJson (cleanFences raw)).bind
            (fun cand => (jsonLoads cand).bind denull))
  ∧ (∀ bl : JValue,
      handleLlmJsonOrFallback true (toL "not json at all") bl = ⟨bl, 200⟩)
  ∧ (∀ bl : JValue,
      handleLlmJsonOrFallback true (toL "null") bl = ⟨bl, 200⟩)
  ∧ (∀ bl : JValue,
      handleLlmJsonOrFallback true (toL "NaN") bl = ⟨JValue.nan, 200⟩) := by
  refine ⟨?_, ?_, ?_, ?_, ?_, ?_, ?_, ?_⟩
  · intro raw bl
    cases h : parseJsonToObj raw <;>
      simp [handleLlmJsonOrFallback, h, jsonResponse]
  · intro raw bl o h
    simp [handleLlmJsonOrFallback, h, jsonResponse]
  · intro raw bl h
    simp [handleLlmJsonOrFallback, h, jsonResponse]
  · intro raw o h
    simp only [parseJsonToObj]
    rw [h]
  · intro raw h
    simp only [parseJsonToObj]
    rw [h]
    cases hc : extractBalancedJson (cleanFences raw) with
    | none => simp
    | some cand => cases hj : jsonLoads cand <;> simp [hj]
  · intro bl
    rfl
  · intro bl
    rfl
  · intro bl
    rfl

/-- C1 witness: the concrete `not json at all` input with a concrete
fallback object, via the pipeline theorem. -/
theorem c1_recovery_fallback_pipeline_witness :
    handleLlmJsonOrFallback true (toL "not json at all") genericFallback
      = ⟨genericFallback, 200⟩ :=
  c1_recovery_fallback_pipeline.2.2.1 (toL "not json at all") genericFallback (by rfl)

/-- C2: the balanced-extraction stage returns the substring starting at the
first opening brace/bracket of the input up to its matching balanced closer
(string literals and escapes respected by the scanner state), it is
insensitive to surrounding prose, and on the concrete test vector
`Sure, here you go: {"summary":"ok"} thanks` — whose direct parse fails —
the recovery result is exactly the object with key `summary` and value
`ok`.  (A balanced candidate starts with an opening brace/bracket, so it
can never parse to JSON `null`: its parsed object always reaches the
caller.) -/
theorem c2_balanced_extraction_recovery :
    (∀ pre mid post : List Char,
      (∀ c ∈ pre, isOpenCh c = false) →
      extractBalancedJson mid = some mid →
      extractBalancedJson (pre ++ mid ++ post) = some mid)
  ∧ (∀ s r : List Char, extractBalancedJson s = some r →
      ∃ u rest, s = u ++ r ++ rest ∧ (∀ c ∈ u, isOpenCh c = false) ∧
        ∃ c t, r = c :: t ∧ isOpenCh c = true)
  ∧ (∀ (s cand : List Char) (o : JValue), jsonLoads (cleanFences s) = none →
      extractBalancedJson (cleanFences s) = some cand →
      jsonLoads cand = some o → parseJsonToObj s = some o)
  ∧ jsonLoads (cleanFences exC2) = none
  ∧ extractBalancedJson (cleanFences exC2) = some exMid
  ∧ parseJsonToObj exC2 = some (JValue.obj [(toL "summary", JValue.str (toL "ok"))]) := by
  refine ⟨extract_ignores_surroundings, extract_is_first_balanced_substring,
    ?_, by rfl, by rfl, by rfl⟩
  intro s cand o h1 h2 h3
  obtain ⟨u, rest, _, _, c, t, rfl, hopen⟩ := extract_is_first_balanced_substring _ _ h2
  have hdn := jsonLoads_open c t o hopen h3
  simp only [parseJsonToObj]
  rw [h1, h2]
  simp [h3, hdn]

/-- C2 witness: prose-insensitivity applied to the concrete test vector. -/
theorem c2_balanced_extraction_recovery_witness :
    extractBalancedJson (exProse ++ exMid ++ toL " thanks") = some exMid :=
  c2_balanced_extraction_recovery.1 exProse exMid (toL " thanks")
    (by decide) (by rfl)

/-- Every response of the recovery handler carries status 200, on every
path (parsed model object, heuristic fallback, generic fallback). -/
theorem handleLlm_status_200 (bf : Bool) (raw : List Char) (bl : JValue) :
    (handleLlmJsonOrFallback bf raw bl).status = 200 := by
  cases h : parseJsonToObj raw <;>
    cases bf <;>
      simp [handleLlmJsonOrFallback, h, jsonResponse]

/-- C5: posting the single `Fresh Mart` transaction of -42.75 to the
spending endpoint while the model raises (fallback toggle at its default
`true`, heuristic-only mode off) yields HTTP 200 with the heuristic
`bl_spending` result, whose spending total is 42.75 and income total is 0 —
the only category is `Expenses` with total 42.75. -/
theorem c5_spending_fallback_on_model_failure :
    spendingAnalyze false true 0 (some c5Body) modelUnavailable
      = ⟨spendingResultToJson (blSpending 0 [c5Txn]), 200⟩
  ∧ (spendingAnalyze false true 0 (some c5Body) modelUnavailable).status = 200
  ∧ blSpend [c5Txn] = 42.75
  ∧ blIncome [c5Txn] = 0
  ∧ (blSpending 0 [c5Txn]).top_categories = [Category.mk (toL "Expenses") 42.75 1] := by
  have hs : blSpend [c5Txn] = 42.75 := by norm_num [blSpend, amtQ, c5Txn]
  have hi : blIncome [c5Txn] = 0 := by norm_num [blIncome, amtQ, c5Txn]
  refine ⟨by rfl, by rfl, hs, hi, ?_⟩
  simp only [blSpending, hs, hi]
  norm_num [round2, round_eq, amtQ, c5Txn]

/-- C4 counterexample: the model call raises a rate-limit error on its
first attempt and would succeed on the second, yet the endpoint neither
retries nor answers 429: it performs a single attempt and returns HTTP 200
with the heuristic fallback (fallback toggle at its default `true`). -/
theorem c4_counterexample_no_retry_no_429 :
    fraudDetect false true false 0 (some c4Body) none rlThenOk
      = ⟨fraudResultToJson (blFraud [c4Txn]), 200⟩
  ∧ (fraudDetect false true false 0 (some c4Body) none rlThenOk).status = 200
  ∧ ¬ (fraudDetect false true false 0 (some c4Body) none rlThenOk).status = 429 := by
  refine ⟨by rfl, by rfl, ?_⟩
  intro h
  have h200 : (fraudDetect false true false 0 (some c4Body) none rlThenOk).status = 200 := by rfl
  rw [h200] at h
  exact absurd h (by norm_num)

/-- C4 amended: the fraud endpoint performs exactly one model attempt
(its response depends on the oracle only through attempt 0); any exception
— rate-limit or not — is not retried: with the fallback toggle enabled
(its default) the endpoint answers 200 with the heuristic fallback, with
it disabled it answers 500 with the error message; no input ever produces
status 429. -/
theorem c4_single_attempt_no_retry :
    (∀ (blOnly blFallback envFast : Bool) (sigma : ℚ) (body : Option JValue)
       (fastQS : Option (List Char)) (m₁ m₂ : Nat → ModelOutcome),
       m₁ 0 = m₂ 0 →
       fraudDetect blOnly blFallback envFast sigma body fastQS m₁
         = fraudDetect blOnly blFallback envFast sigma body fastQS m₂)
  ∧ (∀ (envFast : Bool) (sigma : ℚ) (body : Option JValue) (fastQS : Option (List Char))
       (m : Nat → ModelOutcome) (rl : Bool) (msg : List Char) (tj : JValue) (tjs : List JValue),
       extractTransactions body = some (tj :: tjs) →
       m 0 = ModelOutcome.exn rl msg →
       fraudDetect false true envFast sigma body fastQS m
         = jsonResponse (fraudResultToJson (blFraud
             (maybeFastFilter ((tj :: tjs).map txnOfJson)
               (match fastQS with | none => envFast | some s => qsTruthy s) sigma))))
  ∧ (∀ (envFast : Bool) (sigma : ℚ) (body : Option JValue) (fastQS : Option (List Char))
       (m : Nat → ModelOutcome) (rl : Bool) (msg : List Char) (tj : JValue) (tjs : List JValue),
       extractTransactions body = some (tj :: tjs) →
       m 0 = ModelOutcome.exn rl msg →
       fraudDetect false false envFast sigma body fastQS m = err500 msg)
  ∧ (∀ (blOnly blFallback envFast : Bool) (sigma : ℚ) (body : Option JValue)
       (fastQS : Option (List Char)) (m : Nat → ModelOutcome),
       ¬ (fraudDetect blOnly blFallback envFast sigma body fastQS m).status = 429) := by
  refine ⟨?_, ?_, ?_, ?_⟩
  · intro blOnly blFallback envFast sigma body fastQS m₁ m₂ h
    unfold fraudDetect
    rw [h]
  · intro envFast sigma body fastQS m rl msg tj tjs hE hm
    simp [fraudDetect, hE, hm]
  · intro envFast sigma body fastQS m rl msg tj tjs hE hm
    simp [fraudDetect, hE, hm]
  · intro blOnly blFallback envFast sigma body fastQS m
    unfold fraudDetect
    cases hE : extractTransactions body with
    | none => simp [err400]
    | some l =>
      cases l with
      | nil => simp [err400]
      | cons tj tjs =>
        cases blOnly with
        | true => simp [jsonResponse]
        | false =>
          cases hm : m 0 with
          | ok text => simp [handleLlm_status_200]
          | exn rl msg =>
            cases blFallback <;> simp [jsonResponse, err500]

/-- C4 amended witness: with a first-attempt rate-limit error and default
flags, the concrete C4 scenario returns the heuristic fallback with 200. -/
theorem c4_single_attempt_no_retry_witness :
    fraudDetect false true false 0 (some c4Body) none rlThenOk
      = jsonResponse (fraudResultToJson (blFraud
          (maybeFastFilter ([JValue.obj
            [ (toL "date", JValue.str (toL "2024-01-02"))
            , (toL "label", JValue.str (toL "Wire"))
            , (toL "amount", JValue.num 500) ]].map txnOfJson) false 0))) :=
  c4_single_attempt_no_retry.2.1 false 0 (some c4Body) none rlThenOk true
    (toL "429 Resource exhausted")
    (JValue.obj
      [ (toL "date", JValue.str (toL "2024-01-02"))
      , (toL "label", JValue.str (toL "Wire"))
      , (toL "amount", JValue.num 500) ]) [] (by rfl) (by rfl)

/-- C7 counterexample: a raw record whose destination equals the caller's
account (hence classified inbound) but whose amount is 0 — as any record
with a missing amount is — yields output amount 0, which is not positive;
the claim's unconditional "inbound records yield a positive amount" fails. -/
theorem c7_counterexample_zero_amount :
    c7Raw.toAccountNum = toL "12345"
  ∧ (transformOne (toL "12345") c7Raw).amount = some 0
  ∧ ¬ (0 : ℚ) < 0
  ∧ (transformOne (toL "12345") c7Raw).label = some (toL "Inbound from 67890") := by
  refine ⟨by rfl, by decide, by norm_num, by decide⟩

/-- C7 amended: for raw records with positive amount, the normalizer marks
a record inbound exactly when its destination account equals the caller's
account; inbound records keep the positive amount and get an
`Inbound from {source}` label, other records get the negated (negative)
amount and an `Outbound to {destination}` label. -/
theorem c7_normalizer_inbound_outbound (t : RawTxn) (acct : List Char)
    (hpos : 0 < t.amount) :
    (transformOne acct t).amount
        = some (if t.toAccountNum = acct then t.amount else -t.amount)
  ∧ (t.toAccountNum = acct →
       (transformOne acct t).amount = some t.amount ∧ 0 < t.amount ∧
       (transformOne acct t).label = some (toL "Inbound from " ++ t.fromAccountNum))
  ∧ (¬ t.toAccountNum = acct →
       (transformOne acct t).amount = some (-t.amount) ∧ -t.amount < 0 ∧
       (transformOne acct t).label = some (toL "Outbound to " ++ t.toAccountNum))
  ∧ (transformOne acct t).date = some (normalizeTs t.timestamp) := by
  by_cases h : t.toAccountNum = acct
  · refine ⟨by simp [transformOne, h], fun _ => ⟨by simp [transformOne, h], hpos,
      by simp [transformOne, h]⟩, fun hc => absurd h hc, by simp [transformOne]⟩
  · exact ⟨by simp [transformOne, h], fun hc => absurd hc h,
      fun _ => ⟨by simp [transformOne, h], by linarith, by simp [transformOne, h]⟩,
      by simp [transformOne]⟩

/-- C7 amended witness: a concrete positive-amount record, both inbound
and outbound classification. -/
theorem c7_normalizer_inbound_outbound_witness :
    (0 : ℚ) < 5
  ∧ (transformOne (toL "A") { toAccountNum := toL "A", fromAccountNum := toL "B", amount := 5 }).amount
      = some (if (toL "A" : List Char) = toL "A" then (5 : ℚ) else -5) := by
  refine ⟨by norm_num, ?_⟩
  exact (c7_normalizer_inbound_outbound
    { toAccountNum := toL "A", fromAccountNum := toL "B", amount := 5 }
    (toL "A") (by norm_num)).1

/-- Association-list lookup distributes over append. -/
theorem alistGet_append {β : Type} (k : List Char) :
    ∀ (xs ys : List (List Char × β)),
      alistGet (xs ++ ys) k
        = match alistGet xs k with
          | some v => some v
          | none => alistGet ys k := by
  intro xs ys
  induction xs with
  | nil => simp [alistGet]
  | cons kv rest ih =>
    by_cases hk : kv.1 = k <;> simp [alistGet, hk, ih]

/-- Lookup in the override-mapped half of `dictUpdate`. -/
theorem alistGet_updMap {β : Type} (b : List (List Char × β)) (k : List Char) :
    ∀ (a : List (List Char × β)),
      alistGet (a.map (fun kv => match alistGet b kv.1 with
        | some v => (kv.1, v)
        | none => kv)) k
      = (alistGet a k).bind (fun v => match alistGet b k with
          | some w => some w
          | none => some v) := by
  intro a
  induction a with
  | nil => simp [alistGet]
  | cons kv rest ih =>
    by_cases hk : kv.1 = k
    · subst hk
      cases hb : alistGet b kv.1 <;> simp [alistGet, hb]
    · cases hb : alistGet b kv.1 <;> simp [alistGet, hk, ih, hb]

/-- Lookup in a list filtered by a key predicate. -/
theorem alistGet_filterKey {β : Type} (q : List Char → Bool) (k : List Char) :
    ∀ (b : List (List Char × β)),
      alistGet (b.filter (fun kv => q kv.1)) k
        = if q k then alistGet b k else none := by
  intro b
  induction b with
  | nil => cases hq : q k <;> simp [alistGet, hq]
  | cons kv rest ih =>
    by_cases hk : kv.1 = k
    · subst hk
      cases hq : q kv.1 <;> simp [alistGet, List.filter_cons, hq, ih]
    · cases hq : q kv.1 <;> simp [alistGet, List.filter_cons, hq, hk, ih]

/-- `{**a, **b}` lookup: entries of `b` take precedence, entries of `a`
fill the rest. -/
theorem alistGet_dictUpdate {β : Type} (a b : List (List Char × β)) (k : List Char) :
    alistGet (dictUpdate a b) k
      = match alistGet b k with
        | some w => some w
        | none => alistGet a k := by
  unfold dictUpdate
  rw [alistGet_append, alistGet_updMap b k a,
    alistGet_filterKey (fun x => (alistGet a x).isNone) k b]
  cases ha : alistGet a k <;> cases hb : alistGet b k <;> simp [ha, hb]

/-- C9 counterexample: the prompt templates are loaded once at startup;
`render_prompt` performs no modification-time check, so after the template
source changes from `OLD ...` to `NEW ...` the next render still produces
the OLD text, not the text of the current template content. -/
theorem c9_counterexample_no_hot_reload :
    renderAfterFileChange (some oldPromptsFile) (some newPromptsFile) (toL "coach") c9Args
      = toL "OLD T"
  ∧ renderPrompt (loadPrompts (some newPromptsFile)) (toL "coach") c9Args = toL "NEW T"
  ∧ (toL "OLD T" : List Char) ≠ toL "NEW T" := by
  refine ⟨by decide, by decide, by decide⟩

/-- C9 amended: templates are loaded once at startup (file entries merged
over the in-code defaults, file entries taking precedence, defaults
filling the rest); a render after a template-source change is entirely
determined by the set loaded at startup — no modification-time check or
reload happens on render, so the change is not observable until the
prompts are re-loaded.  Missing template names render as the empty string,
and missing substitution keys render as empty (safe substitution). -/
theorem c9_prompts_loaded_once_no_reload :
    (∀ (initial c₁ c₂ : Option (List (List Char × List Char)))
       (name : List Char) (args : List (List Char × List Char)),
       renderAfterFileChange initial c₁ name args = renderAfterFileChange initial c₂ name args)
  ∧ (∀ (file : List (List Char × List Char)) (k : List Char) (v : List Char),
       alistGet file k = some v → alistGet (loadPrompts (some file)) k = some v)
  ∧ (∀ (file : List (List Char × List Char)) (k : List Char),
       alistGet file k = none →
       alistGet (loadPrompts (some file)) k = alistGet defaultPrompts k)
  ∧ loadPrompts none = defaultPrompts
  ∧ (∀ (prompts : List (List Char × List Char)) (name : List Char)
       (args : List (List Char × List Char)),
       alistGet prompts name = none → renderPrompt prompts name args = [])
  ∧ renderPrompt defaultPrompts (toL "fraud_detect") [(toL "transactions", toL "T")]
      = toL "You detect fraud.\nTransactions:\nT\n\nReturn JSON with findings, overall_risk, summary.\n" := by
  refine ⟨fun _ _ _ _ _ => rfl, ?_, ?_, rfl, ?_, by decide⟩
  · intro file k v h
    rw [show loadPrompts (some file) = dictUpdate defaultPrompts file from rfl,
      alistGet_dictUpdate defaultPrompts file k, h]
  · intro file k h
    rw [show loadPrompts (some file) = dictUpdate defaultPrompts file from rfl,
      alistGet_dictUpdate defaultPrompts file k, h]
  · intro prompts name args h
    simp [renderPrompt, h, fmtMapAux]

/-- C9 amended witness: rendering the coach template loaded from the OLD
file is unaffected by what the file was later changed to. -/
theorem c9_prompts_loaded_once_no_reload_witness :
    renderAfterFileChange (some oldPromptsFile) (some newPromptsFile) (toL "coach") c9Args
      = renderAfterFileChange (some oldPromptsFile) none (toL "coach") c9Args :=
  c9_prompts_loaded_once_no_reload.1 (some oldPromptsFile) (some newPromptsFile) none
    (toL "coach") c9Args

/-- The source's `sigma if sigma > 1e-9 else 1e-9` equals `max(sigma, 1e-9)`. -/
theorem ifEps_eq_max (s : ℚ) : (if s > EPS then s else EPS) = max s EPS := by
  rcases le_or_lt s EPS with h | h
  · rw [if_neg (not_lt.mpr h), max_eq_right h]
  · rw [if_pos h, max_eq_left h.le]

/-- The mean of a list of absolute amounts is nonnegative. -/
theorem listMean_absAmounts_nonneg (txns : List Txn) :
    0 ≤ listMean (absAmounts txns) := by
  apply div_nonneg
  · apply List.sum_nonneg
    intro x hx
    obtain ⟨t, _, rfl⟩ := List.mem_map.mp hx
    exact abs_nonneg _
  · exact Nat.cast_nonneg _

/-- C3: the statistical pre-screen.  With the fast flag off it is the
identity.  With it on, writing `σ` for the population standard deviation
of the absolute amounts (zero when fewer than two values, as witnessed by
`σ ≥ 0` and `σ² = pvariance`), the threshold is
`mean + 3·max(σ, 1e-9)`, it is strictly positive for every nonempty input,
and the output is exactly the sublist of transactions whose absolute
amount strictly exceeds the threshold — except that an empty such sublist
falls back to the full original list, so a nonempty input never produces
an empty output. -/
theorem c3_statistical_prescreen :
    (∀ (txns : List Txn) (sigma : ℚ), maybeFastFilter txns false sigma = txns)
  ∧ (∀ (txns : List Txn) (sigma : ℚ),
       (absAmounts txns).length < 2 →
       (if 1 < (absAmounts txns).length then sigma else 0) = 0)
  ∧ (∀ s : ℚ, (if s > EPS then s else EPS) = max s EPS)
  ∧ (∀ (txns : List Txn) (sigma : ℚ), txns ≠ [] → 0 ≤ sigma →
       sigma ^ 2 = pvariance (absAmounts txns) →
       0 < listMean (absAmounts txns)
           + 3 * max (if 1 < (absAmounts txns).length then sigma else 0) EPS
       ∧ maybeFastFilter txns true sigma
           = (if txns.filter (fun t => decide (listMean (absAmounts txns)
                 + 3 * max (if 1 < (absAmounts txns).length then sigma else 0) EPS
                 < |amtQ t|)) = []
              then txns
              else txns.filter (fun t => decide (listMean (absAmounts txns)
                 + 3 * max (if 1 < (absAmounts txns).length then sigma else 0) EPS
                 < |amtQ t|))))
  ∧ (∀ (txns : List Txn) (fast : Bool) (sigma : ℚ), txns ≠ [] →
       maybeFastFilter txns fast sigma ≠ []) := by
  refine ⟨fun _ _ => rfl, ?_, ifEps_eq_max, ?_, ?_⟩
  · intro txns sigma h
    rw [if_neg (by omega)]
  · intro txns sigma hne hs0 hsv
    constructor
    · have h1 := listMean_absAmounts_nonneg txns
      have h2 : EPS ≤ max (if 1 < (absAmounts txns).length then sigma else 0) EPS :=
        le_max_right _ _
      have h3 : (0 : ℚ) < EPS := by norm_num [EPS]
      linarith
    · cases txns with
      | nil => exact absurd rfl hne
      | cons a l =>
        have hAe : (absAmounts (a :: l)).isEmpty = false := by simp [absAmounts]
        simp only [maybeFastFilter, Bool.not_true, List.isEmpty_cons, Bool.false_or,
          if_neg Bool.false_ne_true, hAe, ifEps_eq_max]
        cases hF : (a :: l).filter (fun t => decide (listMean (absAmounts (a :: l))
            + 3 * max (if 1 < (absAmounts (a :: l)).length then sigma else 0) EPS
            < |amtQ t|)) <;>
          simp [hF]
  · intro txns fast sigma hne
    cases txns with
    | nil => exact absurd rfl hne
    | cons a l =>
      cases fast with
      | false => simp [maybeFastFilter]
      | true =>
        have hAe : (absAmounts (a :: l)).isEmpty = false := by simp [absAmounts]
        simp only [maybeFastFilter, Bool.not_true, List.isEmpty_cons, Bool.false_or,
          if_neg Bool.false_ne_true, hAe, ifEps_eq_max]
        cases hF : (a :: l).filter (fun t => decide (listMean (absAmounts (a :: l))
            + 3 * max (if 1 < (absAmounts (a :: l)).length then sigma else 0) EPS
            < |amtQ t|)) <;>
          simp [hF]

/-- C3 witness: amounts 1 and 3 (mean 2, population standard deviation 1):
the threshold is 5, no transaction exceeds it, and the full list comes
back. -/
theorem c3_statistical_prescreen_witness :
    0 < listMean (absAmounts [txA, txB])
        + 3 * max (if 1 < (absAmounts [txA, txB]).length then (1 : ℚ) else 0) EPS :=
  (c3_statistical_prescreen.2.2.2.1 [txA, txB] 1 (by simp)
    (by norm_num)
    (by norm_num [pvariance, listMean, absAmounts, amtQ, txA, txB])).1

/-- C8: input validation.  A missing body, a body that is neither a bare
array nor an object whose `transactions` key holds a list, or an empty
transaction list, yields HTTP 400 from each analysis endpoint — for every
model oracle, i.e. without invoking the model; a bare array or an object
carrying a nonempty `transactions` list passes validation, after which the
response status is 200 or 500, never 400. -/
theorem c8_request_validation :
    extractTransactions none = none
  ∧ (∀ l : List JValue, extractTransactions (some (JValue.arr l)) = some l)
  ∧ (∀ (kvs : List (List Char × JValue)) (l : List JValue),
       alistGet kvs (toL "transactions") = some (JValue.arr l) →
       extractTransactions (some (JValue.obj kvs)) = some l)
  ∧ (∀ kvs, (∀ l, ¬ alistGet kvs (toL "transactions") = some (JValue.arr l)) →
       extractTransactions (some (JValue.obj kvs)) = none)
  ∧ (∀ b : Bool, extractTransactions (some (JValue.bool b)) = none)
  ∧ (∀ q : ℚ, extractTransactions (some (JValue.num q)) = none)
  ∧ (∀ s : List Char, extractTransactions (some (JValue.str s)) = none)
  ∧ extractTransactions (some JValue.null) = none
  ∧ (∀ (blOnly blFallback envFast : Bool) (sigma : ℚ) (body : Option JValue)
       (fastQS : Option (List Char)) (m : Nat → ModelOutcome),
       (extractTransactions body = none ∨ extractTransactions body = some []) →
       spendingAnalyze blOnly blFallback sigma body m = err400
       ∧ budgetCoach blOnly blFallback sigma body m = err400
       ∧ fraudDetect blOnly blFallback envFast sigma body fastQS m = err400)
  ∧ (∀ (blOnly blFallback envFast : Bool) (sigma : ℚ) (body : Option JValue)
       (fastQS : Option (List Char)) (m : Nat → ModelOutcome) (tj : JValue) (tjs : List JValue),
       extractTransactions body = some (tj :: tjs) →
       ((spendingAnalyze blOnly blFallback sigma body m).status = 200
          ∨ (spendingAnalyze blOnly blFallback sigma body m).status = 500)
       ∧ ((budgetCoach blOnly blFallback sigma body m).status = 200
          ∨ (budgetCoach blOnly blFallback sigma body m).status = 500)
       ∧ ((fraudDetect blOnly blFallback envFast sigma body fastQS m).status = 200
          ∨ (fraudDetect blOnly blFallback envFast sigma body fastQS m).status = 500)) := by
  refine ⟨rfl, fun _ => rfl, ?_, ?_, fun _ => rfl, fun _ => rfl, fun _ => rfl, rfl, ?_, ?_⟩
  · intro kvs l h
    simp only [extractTransactions]
    rw [h]
  · intro kvs h
    simp only [extractTransactions]
  · intro blOnly blFallback envFast sigma body fastQS m h
    rcases h with h | h <;>
      exact ⟨by simp [spendingAnalyze, h], by simp [budgetCoach, h], by simp [fraudDetect, h]⟩
  · intro blOnly blFallback envFast sigma body fastQS m tj tjs hE
    refine ⟨?_, ?_, ?_⟩
    · cases blOnly <;> cases hm : m 0 <;> cases blFallback <;>
        simp [spendingAnalyze, hE, hm, jsonResponse, err500, handleLlm_status_200]
    · cases blOnly <;> cases hm : m 0 <;> cases blFallback <;>
        simp [budgetCoach, hE, hm, jsonResponse, err500, handleLlm_status_200]
    · cases blOnly <;> cases hm : m 0 <;> cases blFallback <;>
        simp [fraudDetect, hE, hm, jsonResponse, err500, handleLlm_status_200]

/-- C8 witness: the concrete one-transaction bare-array body passes
validation on the spending endpoint and yields a non-400 status. -/
theorem c8_request_validation_witness :
    (spendingAnalyze false true 0 (some c5Body) modelUnavailable).status = 200
      ∨ (spendingAnalyze false true 0 (some c5Body) modelUnavailable).status = 500 :=
  (c8_request_validation.2.2.2.2.2.2.2.2.2 false true false 0 (some c5Body) none
    modelUnavailable
    (JValue.obj
      [ (toL "date", JValue.str (toL "2024-01-01"))
      , (toL "label", JValue.str (toL "Fresh Mart"))
      , (toL "amount", JValue.num (-42.75)) ]) [] (by rfl)).1

/-- The per-transaction loop body of `bl_fraud` produces exactly the
claim-side finding for flagged transactions and nothing otherwise: the
max-accumulated, cent-rounded risk equals 0.9 for amounts at least 100000
and 0.6 for the other flagged transactions. -/
theorem blFraudFinding_eq (t : Txn) :
    blFraudFinding t = if flaggedSpec t then some (findingSpec t) else none := by
  by_cases hb : (100000 : ℚ) ≤ amtQ t <;>
    by_cases hr1 : (10000 : ℚ) ≤ |amtQ t| <;>
      by_cases hr2 : isMult100 |amtQ t| = true <;>
        simp [blFraudFinding, findingSpec, indicatorsSpec, riskSpec, flaggedSpec,
          hb, hr1, hr2] <;>
          norm_num [round2, round_eq, max_def]

/-- A `filterMap` whose function answers `some (g a)` exactly on `p` is a
`filter` followed by a `map`. -/
theorem filterMap_eq_map_filter {α β : Type} (F : α → Option β) (p : α → Bool) (g : α → β)
    (hF : ∀ a, F a = if p a then some (g a) else none) :
    ∀ l : List α, l.filterMap F = (l.filter p).map g := by
  intro l
  induction l with
  | nil => simp
  | cons a as ih =>
    cases hp : p a <;>
      simp [List.filterMap_cons, List.filter_cons, hF, hp, ih]

/-- The findings of `bl_fraud` are exactly the claim-side findings of the
flagged transactions, in order. -/
theorem blFraud_findings_eq (txns : List Txn) :
    (blFraud txns).findings = (txns.filter flaggedSpec).map findingSpec :=
  filterMap_eq_map_filter blFraudFinding flaggedSpec findingSpec blFraudFinding_eq txns

/-- The overall risk of `bl_fraud` in terms of the transaction list. -/
theorem blFraud_overall_eq (txns : List Txn) :
    (blFraud txns).overall_risk =
      if txns.any (fun t => decide ((100000 : ℚ) ≤ amtQ t)) then toL "high"
      else if txns.any flaggedSpec then toL "medium"
      else toL "low" := by
  have e1 : (fun t => flaggedSpec t && decide ((85/100 : ℚ) ≤ (findingSpec t).risk_score))
      = fun t => decide ((100000 : ℚ) ≤ amtQ t) := by
    funext t
    by_cases h : (100000 : ℚ) ≤ amtQ t <;>
      simp [flaggedSpec, findingSpec, riskSpec, h] <;> norm_num
  have e2 : (fun t => flaggedSpec t && decide ((6/10 : ℚ) ≤ (findingSpec t).risk_score))
      = flaggedSpec := by
    funext t
    by_cases h : (100000 : ℚ) ≤ amtQ t <;> simp [findingSpec, riskSpec, h]
    all_goals norm_num
  have hany : ∀ q : Finding → Bool,
      ((blFraud txns).findings.any q)
        = txns.any (fun t => flaggedSpec t && q (findingSpec t)) := by
    intro q
    rw [blFraud_findings_eq]
    induction txns with
    | nil => rfl
    | cons a as ih =>
      cases hp : flaggedSpec a <;>
        simp [List.filter_cons, hp, ih]
  show (if (blFraud txns).findings.any (fun f => decide ((85/100 : ℚ) ≤ f.risk_score))
          then toL "high"
        else if (blFraud txns).findings.any (fun f => decide ((6/10 : ℚ) ≤ f.risk_score))
          then toL "medium"
        else toL "low") = _
  rw [hany, hany]
  simp only [e1, e2]

/-- Trichotomy of the overall risk, with its characterizing facts. -/
theorem blFraud_overall_cases (txns : List Txn) :
    ((blFraud txns).overall_risk = toL "high" ∧ ∃ t ∈ txns, (100000 : ℚ) ≤ amtQ t)
  ∨ ((blFraud txns).overall_risk = toL "medium" ∧ (¬ ∃ t ∈ txns, (100000 : ℚ) ≤ amtQ t)
       ∧ ∃ t ∈ txns, flaggedSpec t = true)
  ∨ ((blFraud txns).overall_risk = toL "low" ∧ (¬ ∃ t ∈ txns, (100000 : ℚ) ≤ amtQ t)
       ∧ ∀ t ∈ txns, flaggedSpec t = false) := by
  have hover := blFraud_overall_eq txns
  cases hA : txns.any (fun t => decide ((100000 : ℚ) ≤ amtQ t)) with
  | true =>
    rw [hA] at hover
    simp only [if_true] at hover
    left
    obtain ⟨t, ht, hp⟩ := List.any_eq_true.mp hA
    exact ⟨hover, t, ht, of_decide_eq_true hp⟩
  | false =>
    have hnobig : ¬ ∃ t ∈ txns, (100000 : ℚ) ≤ amtQ t := by
      rintro ⟨t, ht, hp⟩
      have h2 : txns.any (fun t => decide ((100000 : ℚ) ≤ amtQ t)) = true :=
        List.any_eq_true.mpr ⟨t, ht, by simpa using hp⟩
      rw [hA] at h2
      exact absurd h2 (by simp)
    rw [hA] at hover
    simp only [Bool.false_eq_true, if_false] at hover
    cases hB : txns.any flaggedSpec with
    | true =>
      rw [hB] at hover
      simp only [if_true] at hover
      exact Or.inr (Or.inl ⟨hover, hnobig, List.any_eq_true.mp hB⟩)
    | false =>
      rw [hB] at hover
      simp only [Bool.false_eq_true, if_false] at hover
      refine Or.inr (Or.inr ⟨hover, hnobig, ?_⟩)
      intro t ht
      cases hft : flaggedSpec t with
      | false => rfl
      | true =>
        have h2 : txns.any flaggedSpec = true := List.any_eq_true.mpr ⟨t, ht, hft⟩
        rw [hB] at h2
        exact absurd h2 (by simp)

/-- C10: `bl_fraud` flags exactly the transactions with amount at least
100000 or with absolute amount at least 10000 and a whole multiple of 100;
a flagged transaction's risk score is 0.9 when its amount is at least
100000 and 0.6 otherwise; the overall risk is one of low/medium/high —
high exactly when some transaction has amount at least 100000, medium
exactly when none does but some transaction is flagged, low exactly when
the findings list is empty (equivalently, when nothing is flagged). -/
theorem c10_bl_fraud_policies (txns : List Txn) :
    ((blFraud txns).findings.map (fun f => f.transaction)
       = (txns.filter flaggedSpec).map (fun t => FindingTxn.mk t.date t.label (amtQ t)))
  ∧ (∀ f ∈ (blFraud txns).findings,
       f.risk_score = if (100000 : ℚ) ≤ f.transaction.amount then 9/10 else 6/10)
  ∧ ((blFraud txns).overall_risk = toL "low" ∨ (blFraud txns).overall_risk = toL "medium"
       ∨ (blFraud txns).overall_risk = toL "high")
  ∧ ((blFraud txns).overall_risk = toL "high" ↔ ∃ t ∈ txns, (100000 : ℚ) ≤ amtQ t)
  ∧ ((blFraud txns).overall_risk = toL "medium" ↔
       (¬ ∃ t ∈ txns, (100000 : ℚ) ≤ amtQ t) ∧ ∃ t ∈ txns, flaggedSpec t = true)
  ∧ ((blFraud txns).overall_risk = toL "low" ↔ (blFraud txns).findings = [])
  ∧ ((blFraud txns).findings = [] ↔ ∀ t ∈ txns, flaggedSpec t = false) := by
  have hbigflag : ∀ t : Txn, (100000 : ℚ) ≤ amtQ t → flaggedSpec t = true := by
    intro t h
    simp [flaggedSpec, h]
  have hfe : (blFraud txns).findings = [] ↔ ∀ t ∈ txns, flaggedSpec t = false := by
    rw [blFraud_findings_eq, List.map_eq_nil_iff, List.filter_eq_nil_iff]
    simp
  have htri := blFraud_overall_cases txns
  refine ⟨?_, ?_, ?_, ?_, ?_, ?_, hfe⟩
  · rw [blFraud_findings_eq, List.map_map]
    rfl
  · intro f hf
    rw [blFraud_findings_eq] at hf
    obtain ⟨t, _, rfl⟩ := List.mem_map.mp hf
    simp [findingSpec, riskSpec]
  · rcases htri with ⟨h, _⟩ | ⟨h, _, _⟩ | ⟨h, _, _⟩
    · exact Or.inr (Or.inr h)
    · exact Or.inr (Or.inl h)
    · exact Or.inl h
  · rcases htri with ⟨h, hex⟩ | ⟨h, hno, _⟩ | ⟨h, hno, _⟩
    · exact ⟨fun _ => hex, fun _ => h⟩
    · rw [h]
      exact ⟨fun hcon => absurd hcon (by decide), fun hex => absurd hex hno⟩
    · rw [h]
      exact ⟨fun hcon => absurd hcon (by decide), fun hex => absurd hex hno⟩
  · rcases htri with ⟨h, hex⟩ | ⟨h, hno, hexf⟩ | ⟨h, hno, hall⟩
    · rw [h]
      exact ⟨fun hcon => absurd hcon (by decide), fun ⟨hnob, _⟩ => absurd hex hnob⟩
    · exact ⟨fun _ => ⟨hno, hexf⟩, fun _ => h⟩
    · rw [h]
      refine ⟨fun hcon => absurd hcon (by decide), ?_⟩
      rintro ⟨_, t, ht, hft⟩
      rw [hall t ht] at hft
      exact absurd hft (by simp)
  · rw [hfe]
    rcases htri with ⟨h, hex⟩ | ⟨h, hno, hexf⟩ | ⟨h, hno, hall⟩
    · rw [h]
      refine ⟨fun hcon => absurd hcon (by decide), ?_⟩
      intro hallf
      obtain ⟨t, ht, hbig⟩ := hex
      have h1 := hallf t ht
      rw [hbigflag t hbig] at h1
      exact absurd h1 (by simp)
    · rw [h]
      refine ⟨fun hcon => absurd hcon (by decide), ?_⟩
      intro hallf
      obtain ⟨t, ht, hft⟩ := hexf
      have h1 := hallf t ht
      rw [hft] at h1
      exact absurd h1 (by simp)
    · exact ⟨fun _ => hall, fun _ => h⟩

/-- C10 witness: a 150000 transaction, a round -20000 transaction and a
small one — both policies fire, the big transaction dominates and the
overall risk is high. -/
theorem c10_bl_fraud_policies_witness :
    (blFraud [bigT, roundT, smallT]).overall_risk = toL "high" :=
  (c10_bl_fraud_policies [bigT, roundT, smallT]).2.2.2.1.mpr
    ⟨bigT, by simp, by norm_num [amtQ, bigT]⟩

/-- A serialized category always satisfies the category schema (`count` is
a JSON integer). -/
theorem validCategory_toJson (c : Category) :
    validCategory (categoryToJson c) = true := by
  simp +decide [validCategory, categoryToJson, isStringAt, isNumberAt, isIntegerAt,
    jGet, alistGet, Rat.den_natCast]

/-- A serialized transaction carrying all three fields satisfies the
`{date, label, amount}` schema. -/
theorem validTxnObj_toJson (t : Txn) (hd : t.date.isSome) (hl : t.label.isSome)
    (ha : t.amount.isSome) : validTxnObj (txnToJson t) = true := by
  obtain ⟨d, hdeq⟩ := Option.isSome_iff_exists.mp hd
  obtain ⟨l, hleq⟩ := Option.isSome_iff_exists.mp hl
  obtain ⟨a, haeq⟩ := Option.isSome_iff_exists.mp ha
  simp +decide [validTxnObj, txnToJson, hdeq, hleq, haeq, isStringAt, isNumberAt,
    jGet, alistGet]

/-- A serialized finding whose transaction carries date and label
satisfies the finding schema. -/
theorem validFinding_toJson (f : Finding) (hd : f.transaction.date.isSome)
    (hl : f.transaction.label.isSome) : validFinding (findingToJson f) = true := by
  obtain ⟨d, hdeq⟩ := Option.isSome_iff_exists.mp hd
  obtain ⟨l, hleq⟩ := Option.isSome_iff_exists.mp hl
  simp +decide [validFinding, findingToJson, validTxnObj, isStringAt, isNumberAt,
    allArrayAt, isStrV, optStrJ, jGet, alistGet, hdeq, hleq, List.all_map,
    Function.comp, List.all_eq_true]

/-- The heuristic fraud fallback output is schema-valid whenever every
transaction carries a date and a label (the finding's transaction
sub-object must serialize them as strings, not nulls). -/
theorem fraud_fallback_schema_valid (txns : List Txn)
    (h : ∀ t ∈ txns, t.date.isSome ∧ t.label.isSome) :
    fraudSchemaValid (fraudResultToJson (blFraud txns)) = true := by
  have hovEnum : (blFraud txns).overall_risk = toL "low"
      ∨ (blFraud txns).overall_risk = toL "medium"
      ∨ (blFraud txns).overall_risk = toL "high" := by
    rcases blFraud_overall_cases txns with ⟨h1, _⟩ | ⟨h1, _, _⟩ | ⟨h1, _, _⟩
    · exact Or.inr (Or.inr h1)
    · exact Or.inr (Or.inl h1)
    · exact Or.inl h1
  have hfindings : ∀ f ∈ (blFraud txns).findings, validFinding (findingToJson f) = true := by
    intro f hf
    rw [blFraud_findings_eq] at hf
    obtain ⟨t, htmem, rfl⟩ := List.mem_map.mp hf
    have htx := h t (List.mem_filter.mp htmem).1
    exact validFinding_toJson (findingSpec t) htx.1 htx.2
  simp +decide [fraudSchemaValid, fraudResultToJson, allArrayAt, isStringAt,
    jGet, alistGet, List.all_map, Function.comp, List.all_eq_true]
  refine ⟨fun f hf => hfindings f hf, ?_⟩
  rcases hovEnum with h1 | h1 | h1 <;> simp [h1]

/-- The heuristic spending fallback output is schema-valid whenever every
transaction carries date, label and amount (the `unusual_transactions`
array embeds the raw records). -/
theorem spending_fallback_schema_valid (sigma : ℚ) (txns : List Txn)
    (h : ∀ t ∈ txns, t.date.isSome ∧ t.label.isSome ∧ t.amount.isSome) :
    spendingSchemaValid (spendingResultToJson (blSpending sigma txns)) = true := by
  have hcats : ∀ c ∈ (blSpending sigma txns).top_categories,
      validCategory (categoryToJson c) = true :=
    fun c _ => validCategory_toJson c
  have hunus : ∀ t ∈ (blSpending sigma txns).unusual_transactions,
      validTxnObj (txnToJson t) = true := by
    intro t ht
    have htmem : t ∈ txns := by
      have : (blSpending sigma txns).unusual_transactions
          = txns.filter (fun t => decide ((if (absAmounts txns).isEmpty then 0
              else listMean (absAmounts txns))
            + 3 * (if (if 1 < (absAmounts txns).length then sigma else 0) > EPS
                   then (if 1 < (absAmounts txns).length then sigma else 0) else EPS)
            < |amtQ t|)) := rfl
      rw [this] at ht
      exact (List.mem_filter.mp ht).1
    obtain ⟨h1, h2, h3⟩ := h t htmem
    exact validTxnObj_toJson t h1 h2 h3
  simp +decide [spendingSchemaValid, spendingResultToJson, allArrayAt, isStringAt,
    jGet, alistGet, List.all_map, Function.comp, List.all_eq_true]
  exact ⟨fun c hc => hcats c hc, fun t ht => hunus t ht⟩

/-- The heuristic coach fallback output is always schema-valid. -/
theorem coach_fallback_schema_valid (sigma : ℚ) (txns : List Txn) :
    coachSchemaValid (coachResultToJson (blCoach sigma txns)) = true := by
  simp +decide [coachSchemaValid, coachResultToJson, allArrayAt, isStringAt, isStrV,
    jGet, alistGet, List.all_map, Function.comp, List.all_eq_true]
  exact fun c _ => validCategory_toJson c

/-- C6 counterexample: the model answers the well-formed JSON object
`{"foo": 1}`; the fraud endpoint extracts it and returns it with HTTP 200
as-is — without schema validation — and the returned body satisfies none
of the three response schemas, so a caller can receive a 200 body that
violates the endpoint schema. -/
theorem c6_counterexample_unvalidated_model_object :
    (fraudDetect false true false 0 (some c6Body) none
        (fun _ => ModelOutcome.ok fooText)).status = 200
  ∧ fraudSchemaValid (fraudDetect false true false 0 (some c6Body) none
        (fun _ => ModelOutcome.ok fooText)).body = false
  ∧ spendingSchemaValid (fraudDetect false true false 0 (some c6Body) none
        (fun _ => ModelOutcome.ok fooText)).body = false
  ∧ coachSchemaValid (fraudDetect false true false 0 (some c6Body) none
        (fun _ => ModelOutcome.ok fooText)).body = false
  ∧ fraudSchemaValid fooObj = false := by
  exact ⟨by rfl, by rfl, by rfl, by rfl, by rfl⟩

/-- C6 amended: HTTP 200 bodies produced by the heuristic-fallback path
satisfy the endpoint's schema (for transactions carrying a string date and
label — and, for the spending path, a numeric amount — since the outputs
embed the input records); bodies produced by successful model-JSON
extraction are returned exactly as parsed, with no local schema
validation, and so need not satisfy the schema. -/
theorem c6_schema_valid_fallback_unvalidated_model :
    (∀ txns : List Txn, (∀ t ∈ txns, t.date.isSome ∧ t.label.isSome) →
       fraudSchemaValid (fraudResultToJson (blFraud txns)) = true)
  ∧ (∀ (sigma : ℚ) (txns : List Txn),
       (∀ t ∈ txns, t.date.isSome ∧ t.label.isSome ∧ t.amount.isSome) →
       spendingSchemaValid (spendingResultToJson (blSpending sigma txns)) = true)
  ∧ (∀ (sigma : ℚ) (txns : List Txn),
       coachSchemaValid (coachResultToJson (blCoach sigma txns)) = true)
  ∧ (∀ (bf : Bool) (raw : List Char) (bl o : JValue), parseJsonToObj raw = some o →
       handleLlmJsonOrFallback bf raw bl = ⟨o, 200⟩) :=
  ⟨fraud_fallback_schema_valid, spending_fallback_schema_valid,
   coach_fallback_schema_valid,
   fun bf raw bl o h => by simp [handleLlmJsonOrFallback, h, jsonResponse]⟩

/-- C6 amended witness: the fallback body for the concrete C6 transaction
is schema-valid, and the parsed `{"foo": 1}` model object is passed
through with 200. -/
theorem c6_schema_valid_fallback_unvalidated_model_witness :
    fraudSchemaValid (fraudResultToJson (blFraud [c6Txn])) = true :=
  c6_schema_valid_fallback_unvalidated_model.1 [c6Txn]
    (by intro t ht; simp at ht; subst ht; exact ⟨by rfl, by rfl⟩)
